import Mathlib

/-!
Shallow embedding of the wgpu_demo renderer core (src/lib/{util,light,camera,
scene,render_pipeline,model}.rs) and proofs about it.

Modelling conventions:
* `f32` values are idealized as real numbers (`ℝ`); the tolerance claims of the
  spec (epsilon 1e-4) are stated verbatim over this idealization.
* GPU handles (device, queue, buffers, bind groups, shader modules) carry no
  observable state of their own; a `queue.write_buffer(buf, offset, bytes)`
  call is modelled as an emitted write event `(offset, payload)`, and each
  `update`/`write` method returns the mutated object together with the list of
  write events it issued.
* cgmath `Vector3`/`Matrix3` are embedded componentwise; `Matrix4` is embedded
  as Mathlib's `Matrix (Fin 4) (Fin 4) ℝ` (column-major construction sites in
  the Rust source are transposed into row-major `!![..]` literals).
-/

namespace WgpuDemo

/-- cgmath `Vector3<f32>` (also used for `Point3<f32>`). -/
@[ext]
structure V3 where
  x : ℝ
  y : ℝ
  z : ℝ


namespace V3

def zero : V3 := ⟨0, 0, 0⟩

def add (a b : V3) : V3 := ⟨a.x + b.x, a.y + b.y, a.z + b.z⟩

def sub (a b : V3) : V3 := ⟨a.x - b.x, a.y - b.y, a.z - b.z⟩

def neg (a : V3) : V3 := ⟨-a.x, -a.y, -a.z⟩

def smul (s : ℝ) (a : V3) : V3 := ⟨s * a.x, s * a.y, s * a.z⟩

def dot (a b : V3) : ℝ := a.x * b.x + a.y * b.y + a.z * b.z

def cross (a b : V3) : V3 :=
  ⟨a.y * b.z - a.z * b.y, a.z * b.x - a.x * b.z, a.x * b.y - a.y * b.x⟩

/-- cgmath `magnitude2`. -/
def quadrance (a : V3) : ℝ := a.x * a.x + a.y * a.y + a.z * a.z

/-- cgmath `MetricSpace::distance2`: squared distance between two vectors. -/
def distance2 (a b : V3) : ℝ := quadrance (sub b a)

/-- cgmath `magnitude`. -/
noncomputable def magnitude (a : V3) : ℝ := Real.sqrt (quadrance a)

/-- cgmath `normalize`: `self * (1 / magnitude)`. -/
noncomputable def normalize (a : V3) : V3 := smul (1 / magnitude a) a

end V3

/-- cgmath `Vector4<f32>` (used for homogeneous positions and attenuation). -/
@[ext]
structure V4 where
  x : ℝ
  y : ℝ
  z : ℝ
  w : ℝ


/-- cgmath `Matrix3<f32>`: three columns (`m[0]`, `m[1]`, `m[2]`). -/
@[ext]
structure M3 where
  c0 : V3
  c1 : V3
  c2 : V3


namespace M3

def identity : M3 := ⟨⟨1, 0, 0⟩, ⟨0, 1, 0⟩, ⟨0, 0, 1⟩⟩

/-- Matrix-vector product: linear combination of columns. -/
def mulVec (m : M3) (v : V3) : V3 :=
  V3.add (V3.smul v.x m.c0) (V3.add (V3.smul v.y m.c1) (V3.smul v.z m.c2))

/-- Matrix-matrix product, columnwise. -/
def mul (m n : M3) : M3 := ⟨mulVec m n.c0, mulVec m n.c1, mulVec m n.c2⟩

/-- cgmath `Matrix3::from_cols`. -/
def from_cols (a b c : V3) : M3 := ⟨a, b, c⟩

/-- cgmath `Matrix3::from_axis_angle(axis, angle)` (entries are column-major in
the Rust constructor; here recorded as the three columns). -/
noncomputable def from_axis_angle (axis : V3) (angle : ℝ) : M3 :=
  let s := Real.sin angle
  let c := Real.cos angle
  let k := 1 - c
  ⟨⟨k * axis.x * axis.x + c, k * axis.x * axis.y + s * axis.z, k * axis.x * axis.z - s * axis.y⟩,
   ⟨k * axis.x * axis.y - s * axis.z, k * axis.y * axis.y + c, k * axis.y * axis.z + s * axis.x⟩,
   ⟨k * axis.x * axis.z + s * axis.y, k * axis.y * axis.z - s * axis.x, k * axis.z * axis.z + c⟩⟩

/-- cgmath `Matrix3::from_angle_y(angle)`. -/
noncomputable def from_angle_y (angle : ℝ) : M3 :=
  let s := Real.sin angle
  let c := Real.cos angle
  ⟨⟨c, 0, -s⟩, ⟨0, 1, 0⟩, ⟨s, 0, c⟩⟩

end M3

/-! ### Generic uniform holder (src/lib/util.rs, `UniformWrapper<D>`) -/

/-- A buffer write event: `(offset, payload)` as issued by
`queue.write_buffer(buffer, offset, bytes)`. -/
def WriteEvent (D : Type) : Type := ℕ × D

/-- `UniformWrapper<D>`: the data, the dirty flag.  The GPU buffer/bind group
handles carry no state and are omitted. -/
structure UniformWrapper (D : Type) where
  data : D
  dirty : Bool

namespace UniformWrapper

/-- `UniformWrapper::new(device)`: data initialized to `D::default()`, dirty
flag initialized to `true`. -/
def new (D : Type) [Inhabited D] : UniformWrapper D := ⟨default, true⟩

/-- `get_mut()` followed by storing a value: marks dirty. -/
def set {D : Type} (w : UniformWrapper D) (d : D) : UniformWrapper D :=
  { w with data := d, dirty := true }

/-- `write(queue)`: if dirty, write the packed data at offset 0 and clear the
dirty flag; otherwise no-op. -/
def write {D : Type} (w : UniformWrapper D) : UniformWrapper D × List (WriteEvent D) :=
  if w.dirty then ({ w with dirty := false }, [(0, w.data)]) else (w, [])

end UniformWrapper

/-- util.rs `color3`: componentwise square (sRGB-ish to linear). -/
def color3 (v : V3) : V3 := ⟨v.x * v.x, v.y * v.y, v.z * v.z⟩

/-! ### Light (src/lib/light.rs) -/

/-- light.rs `EPSILON`. -/
def EPSILON : ℝ := 1e-4

/-- light.rs `LightType`. -/
inductive LightType where
  | Ambient
  | Point
  | Spot
  | Directional
  deriving DecidableEq

/-- light.rs `LightType::value`. -/
def LightType.value : LightType → ℤ
  | .Ambient => 0
  | .Point => 1
  | .Spot => 2
  | .Directional => 3

/-- light.rs `LightUniform` (padding fields omitted; byte layout is not
modelled). -/
structure LightUniform where
  position : V3
  direction : V3
  ambient : V3
  color : V3
  attenuation : V4
  light_type : ℤ

/-- `LightUniform::default()`: all fields zeroed. -/
def LightUniform.default : LightUniform :=
  ⟨V3.zero, V3.zero, V3.zero, V3.zero, ⟨0, 0, 0, 0⟩, 0⟩

/-- light.rs `AmbientLightDescriptor`. -/
structure AmbientLightDescriptor where
  ambient : V3

/-- light.rs `PointLightDescriptor`. -/
structure PointLightDescriptor where
  position : V3
  ambient : V3
  color : V3
  constant_attenuation : ℝ
  linear_attenuation : ℝ
  exponential_attenuation : ℝ

/-- light.rs `SpotLightDescriptor` (`spot_breadth` in degrees). -/
structure SpotLightDescriptor where
  position : V3
  direction : V3
  ambient : V3
  color : V3
  constant_attenuation : ℝ
  linear_attenuation : ℝ
  exponential_attenuation : ℝ
  spot_breadth : ℝ

/-- light.rs `DirectionalLightDescriptor`. -/
structure DirectionalLightDescriptor where
  direction : V3
  ambient : V3
  color : V3
  constant_attenuation : ℝ

/-- light.rs `Light`.  The `buffer`/`bind_group` handles are omitted; `uniform`
is the staged `LightUniform` that persists between updates (zero-initialized by
`create_resources`).  `spot_breadth` is in degrees (`Deg`). -/
structure Light where
  light_type : LightType
  position : V3
  direction : V3
  ambient : V3
  color : V3
  constant_attenuation : ℝ
  linear_attenuation : ℝ
  exponential_attenuation : ℝ
  spot_breadth : ℝ
  is_dirty : Bool
  uniform : LightUniform

namespace Light

/-- `Light::new_ambient`. -/
def new_ambient (desc : AmbientLightDescriptor) : Light where
  light_type := .Ambient
  position := V3.zero
  direction := V3.zero
  ambient := desc.ambient
  color := V3.zero
  constant_attenuation := 1
  linear_attenuation := 0
  exponential_attenuation := 0
  spot_breadth := 0
  is_dirty := true
  uniform := LightUniform.default

/-- `Light::new_point`. -/
def new_point (desc : PointLightDescriptor) : Light where
  light_type := .Point
  position := desc.position
  direction := V3.zero
  ambient := desc.ambient
  color := desc.color
  constant_attenuation := max desc.constant_attenuation 0
  linear_attenuation := max desc.linear_attenuation 0
  exponential_attenuation := max desc.exponential_attenuation 0
  spot_breadth := 0
  is_dirty := true
  uniform := LightUniform.default

/-- `Light::new_spot`. -/
noncomputable def new_spot (desc : SpotLightDescriptor) : Light where
  light_type := .Spot
  position := desc.position
  direction := desc.direction.normalize
  ambient := desc.ambient
  color := desc.color
  constant_attenuation := max desc.constant_attenuation 0
  linear_attenuation := max desc.linear_attenuation 0
  exponential_attenuation := max desc.exponential_attenuation 0
  spot_breadth := desc.spot_breadth
  is_dirty := true
  uniform := LightUniform.default

/-- `Light::new_directional`. -/
noncomputable def new_directional (desc : DirectionalLightDescriptor) : Light where
  light_type := .Directional
  position := V3.zero
  direction := desc.direction.normalize
  ambient := desc.ambient
  color := desc.color
  constant_attenuation := max desc.constant_attenuation 0
  linear_attenuation := 0
  exponential_attenuation := 0
  spot_breadth := 0
  is_dirty := true
  uniform := LightUniform.default

/-- `Light::set_ambient`. -/
noncomputable def set_ambient (l : Light) (new_ambient : V3) : Light :=
  if EPSILON < V3.distance2 l.ambient new_ambient then
    { l with ambient := new_ambient, is_dirty := true }
  else l

/-- `Light::set_position`. -/
noncomputable def set_position (l : Light) (new_position : V3) : Light :=
  if EPSILON < V3.distance2 l.position new_position then
    { l with position := new_position, is_dirty := true }
  else l

/-- `Light::set_direction` (note: stores the raw vector, no normalization). -/
noncomputable def set_direction (l : Light) (new_dir : V3) : Light :=
  if EPSILON < V3.distance2 l.direction new_dir then
    { l with direction := new_dir, is_dirty := true }
  else l

/-- `Light::set_color`. -/
noncomputable def set_color (l : Light) (new_color : V3) : Light :=
  if EPSILON < V3.distance2 l.color new_color then
    { l with color := new_color, is_dirty := true }
  else l

/-- `Light::set_constant_attenuation`. -/
noncomputable def set_constant_attenuation (l : Light) (a : ℝ) : Light :=
  if EPSILON < |a - l.constant_attenuation| then
    { l with constant_attenuation := a, is_dirty := true }
  else l

/-- `Light::set_linear_attenuation`. -/
noncomputable def set_linear_attenuation (l : Light) (a : ℝ) : Light :=
  if EPSILON < |a - l.linear_attenuation| then
    { l with linear_attenuation := a, is_dirty := true }
  else l

/-- `Light::set_exponential_attenuation`. -/
noncomputable def set_exponential_attenuation (l : Light) (a : ℝ) : Light :=
  if EPSILON < |a - l.exponential_attenuation| then
    { l with exponential_attenuation := a, is_dirty := true }
  else l

/-- `Light::set_spot_breadth` (exact `!=` comparison in the source). -/
noncomputable def set_spot_breadth (l : Light) (b : ℝ) : Light :=
  if b ≠ l.spot_breadth then
    { l with spot_breadth := b, is_dirty := true }
  else l

/-- cgmath `Deg::cos` (degrees to radians, then cosine). -/
noncomputable def degCos (d : ℝ) : ℝ := Real.cos (d * Real.pi / 180)

/-- `Light::update(queue)`: if dirty, refresh the staged uniform from the
light's fields (branching on `light_type`) and write it at offset 0, clearing
the dirty flag; otherwise no-op. -/
noncomputable def update (l : Light) : Light × List (WriteEvent LightUniform) :=
  if l.is_dirty then
    let u0 := { l.uniform with
                light_type := l.light_type.value
                ambient := color3 l.ambient
                color := color3 l.color }
    let u :=
      match l.light_type with
      | .Ambient =>
          { u0 with attenuation := ⟨1, 0, 0, 0⟩ }
      | .Point =>
          { u0 with
            position := l.position
            attenuation := ⟨max l.constant_attenuation 0, max l.linear_attenuation 0,
                            max l.exponential_attenuation 0, 0⟩ }
      | .Spot =>
          { u0 with
            position := l.position
            direction := l.direction.normalize
            attenuation := ⟨max l.constant_attenuation 0, max l.linear_attenuation 0,
                            max l.exponential_attenuation 0, degCos l.spot_breadth⟩ }
      | .Directional =>
          { u0 with
            direction := l.direction.normalize
            attenuation := ⟨max l.constant_attenuation 0, 0, 0, 0⟩ }
    ({ l with uniform := u, is_dirty := false }, [(0, u)])
  else (l, [])

end Light

/-- A constructor invocation for `Light` (the four public `new_*` entry
points), used to quantify over lights reachable through the public API. -/
inductive LightCtor where
  | ambient (desc : AmbientLightDescriptor)
  | point (desc : PointLightDescriptor)
  | spot (desc : SpotLightDescriptor)
  | directional (desc : DirectionalLightDescriptor)

/-- The light built by a constructor invocation. -/
noncomputable def LightCtor.build : LightCtor → Light
  | .ambient d => Light.new_ambient d
  | .point d => Light.new_point d
  | .spot d => Light.new_spot d
  | .directional d => Light.new_directional d

/-- A call to one of `Light`'s public mutating/updating methods. -/
inductive LightOp where
  | setAmbient (v : V3)
  | setPosition (v : V3)
  | setDirection (v : V3)
  | setColor (v : V3)
  | setConstantAttenuation (a : ℝ)
  | setLinearAttenuation (a : ℝ)
  | setExponentialAttenuation (a : ℝ)
  | setSpotBreadth (b : ℝ)
  | update

/-- Apply one public-API call to a light (dropping the emitted writes). -/
noncomputable def LightOp.apply (l : Light) : LightOp → Light
  | .setAmbient v => l.set_ambient v
  | .setPosition v => l.set_position v
  | .setDirection v => l.set_direction v
  | .setColor v => l.set_color v
  | .setConstantAttenuation a => l.set_constant_attenuation a
  | .setLinearAttenuation a => l.set_linear_attenuation a
  | .setExponentialAttenuation a => l.set_exponential_attenuation a
  | .setSpotBreadth b => l.set_spot_breadth b
  | .update => (Light.update l).1

/-- Run a sequence of public-API calls. -/
noncomputable def runLightOps (l : Light) (ops : List LightOp) : Light :=
  ops.foldl LightOp.apply l

/-! ### Camera (src/lib/camera.rs) -/

/-- `Matrix4<f32>`. -/
abbrev M4 : Type := Matrix (Fin 4) (Fin 4) ℝ

/-- camera.rs `OPENGL_TO_WGPU_MATRIX` (the Rust literal is column-major; shown
here as rows). -/
def OPENGL_TO_WGPU_MATRIX : M4 :=
  !![1, 0, 0, 0;
     0, 1, 0, 0;
     0, 0, 0.5, 0.5;
     0, 0, 0, 1]

/-- cgmath `perspective(fovy, aspect, near, far)` where `f = cot(fovy / 2)`
(column-major in cgmath; shown here as rows). -/
noncomputable def perspective (fovy aspect near far : ℝ) : M4 :=
  let f := (Real.tan (fovy / 2))⁻¹
  !![f / aspect, 0, 0, 0;
     0, f, 0, 0;
     0, 0, (far + near) / (near - far), 2 * far * near / (near - far);
     0, 0, -1, 0]

/-- camera.rs `CameraUniform`. -/
structure CameraUniform where
  view_position : Fin 4 → ℝ
  view_proj : M4

/-- `CameraUniform::new()`: zero position, identity matrix. -/
def CameraUniform.new : CameraUniform := ⟨![0, 0, 0, 0], 1⟩

/-- camera.rs `Camera` (GPU buffer/bind-group handles omitted; `look` is the
3×3 orientation whose columns are local right, up, forward). -/
structure Camera where
  position : V3
  look : M3
  aspect : ℝ
  fov_y : ℝ
  znear : ℝ
  zfar : ℝ
  is_dirty : Bool
  uniform_data : CameraUniform

namespace Camera

/-- `Camera::new(device, width, height, fovy, znear, zfar)`. -/
noncomputable def new (width height : ℕ) (fovy znear zfar : ℝ) : Camera where
  position := V3.zero
  look := M3.identity
  aspect := (width : ℝ) / (height : ℝ)
  fov_y := fovy
  znear := znear
  zfar := zfar
  is_dirty := true
  uniform_data := CameraUniform.new

/-- `Camera::world_rotation`. -/
def world_rotation (c : Camera) : M3 := c.look

/-- `Camera::world_transform`: translation times the 4×4 extension of the
orientation (columns of `look` extended by 0, last column `(position, 1)`). -/
def world_transform (c : Camera) : M4 :=
  let r := c.world_rotation
  let world_rotation4 : M4 :=
    !![r.c0.x, r.c1.x, r.c2.x, 0;
       r.c0.y, r.c1.y, r.c2.y, 0;
       r.c0.z, r.c1.z, r.c2.z, 0;
       0, 0, 0, 1]
  let world_translation : M4 :=
    !![1, 0, 0, c.position.x;
       0, 1, 0, c.position.y;
       0, 0, 1, c.position.z;
       0, 0, 0, 1]
  world_translation * world_rotation4

/-- `Camera::view_matrix`: inverse of the world transform. -/
noncomputable def view_matrix (c : Camera) : M4 := (c.world_transform)⁻¹

/-- `Camera::projection_matrix`. -/
noncomputable def projection_matrix (c : Camera) : M4 :=
  OPENGL_TO_WGPU_MATRIX * perspective c.fov_y c.aspect c.znear c.zfar

/-- `CameraUniform::update_view_proj`. -/
noncomputable def updated_uniform (c : Camera) : CameraUniform where
  view_position := ![c.position.x, c.position.y, c.position.z, 1]
  view_proj := c.projection_matrix * c.view_matrix

/-- `Camera::update(queue)`: if dirty, recompute the uniform, write it at
offset 0 and clear the dirty flag; otherwise no-op. -/
noncomputable def update (c : Camera) : Camera × List (WriteEvent CameraUniform) :=
  if c.is_dirty then
    ({ c with uniform_data := c.updated_uniform, is_dirty := false },
     [(0, c.updated_uniform)])
  else (c, [])

/-- `Camera::resize(width, height)`. -/
noncomputable def resize (c : Camera) (width height : ℕ) : Camera :=
  { c with aspect := (width : ℝ) / (height : ℝ), is_dirty := true }

/-- `Camera::set_fov_y` (exact `!=` comparison in the source). -/
noncomputable def set_fov_y (c : Camera) (new_fov_y : ℝ) : Camera :=
  if new_fov_y ≠ c.fov_y then
    { c with fov_y := new_fov_y, is_dirty := true }
  else c

/-- `Camera::look_at(position, at, up)`. -/
noncomputable def look_at (c : Camera) (position at_ up : V3) : Camera :=
  let up0 := up.normalize
  let forward := (V3.sub at_ position).normalize.neg
  let right := (V3.cross up0 forward).normalize
  let up1 := (V3.cross forward right).normalize
  { c with look := M3.from_cols right up1 forward, position := position, is_dirty := true }

/-- `Camera::local_translate(translation)`. -/
def local_translate (c : Camera) (translation : V3) : Camera :=
  { c with position := V3.add c.position (c.look.mulVec translation), is_dirty := true }

/-- `Camera::rotate_by(yaw, pitch)`: pitch about the current local right
(column 0 of `look`), then yaw about world Y. -/
noncomputable def rotate_by (c : Camera) (yaw pitch : ℝ) : Camera :=
  let look1 := M3.mul (M3.from_axis_angle c.look.c0 pitch) c.look
  let look2 := M3.mul (M3.from_angle_y yaw) look1
  { c with look := look2, is_dirty := true }

end Camera

/-- A call to `Camera::look_at` or `Camera::rotate_by` (for quantifying over
orientation-mutating call sequences). -/
inductive CameraOp where
  | lookAt (position at_ up : V3)
  | rotateBy (yaw pitch : ℝ)

/-- Apply one orientation-mutating call. -/
noncomputable def CameraOp.apply (c : Camera) : CameraOp → Camera
  | .lookAt p a u => c.look_at p a u
  | .rotateBy y p => c.rotate_by y p

/-- Run a sequence of `look_at` / `rotate_by` calls. -/
noncomputable def runCameraOps (c : Camera) (ops : List CameraOp) : Camera :=
  ops.foldl CameraOp.apply c

/-! ### Render pipeline cache (src/lib/render_pipeline.rs)

The wgpu descriptor enums/structs that `create_render_pipeline` fills in are
embedded below; GPU-side handles (shader modules, pipeline layouts) are
identified by their label strings. -/

/-- render_pipeline.rs `Pass`. -/
inductive Pass where
  | Ambient
  | Lit
  deriving DecidableEq

/-- wgpu `BlendFactor` (constructors limited to those this program uses). -/
inductive BlendFactor where
  | Zero
  | One
  | OneMinusSrcAlpha
  deriving DecidableEq

/-- wgpu `BlendOperation`. -/
inductive BlendOperation where
  | Add
  deriving DecidableEq

/-- wgpu `BlendComponent`. -/
structure BlendComponent where
  src_factor : BlendFactor
  dst_factor : BlendFactor
  operation : BlendOperation
  deriving DecidableEq

/-- wgpu `BlendComponent::REPLACE`. -/
def BlendComponent.REPLACE : BlendComponent := ⟨.One, .Zero, .Add⟩

/-- wgpu `BlendComponent::OVER` (standard alpha-over). -/
def BlendComponent.OVER : BlendComponent := ⟨.One, .OneMinusSrcAlpha, .Add⟩

/-- wgpu `BlendState`. -/
structure BlendState where
  color : BlendComponent
  alpha : BlendComponent
  deriving DecidableEq

/-- wgpu `BlendState::REPLACE`. -/
def BlendState.REPLACE : BlendState := ⟨.REPLACE, .REPLACE⟩

/-- wgpu `TextureFormat` (constructors limited to those this program uses). -/
inductive TextureFormat where
  | Bgra8UnormSrgb
  | Depth32Float
  deriving DecidableEq

/-- wgpu `CompareFunction` (constructors limited to those this program uses). -/
inductive CompareFunction where
  | Always
  | Less
  | LessEqual
  deriving DecidableEq

/-- wgpu `StencilOperation` (constructors limited to those this program uses). -/
inductive StencilOperation where
  | Keep
  deriving DecidableEq

/-- wgpu `StencilFaceState`. -/
structure StencilFaceState where
  compare : CompareFunction
  fail_op : StencilOperation
  depth_fail_op : StencilOperation
  pass_op : StencilOperation
  deriving DecidableEq

/-- wgpu `StencilFaceState::IGNORE` (the `Default`). -/
def StencilFaceState.IGNORE : StencilFaceState := ⟨.Always, .Keep, .Keep, .Keep⟩

/-- wgpu `StencilState` with its `Default` value. -/
structure StencilState where
  front : StencilFaceState
  back : StencilFaceState
  read_mask : ℕ
  write_mask : ℕ
  deriving DecidableEq

def StencilState.default : StencilState := ⟨.IGNORE, .IGNORE, 0, 0⟩

/-- wgpu `DepthBiasState` with its `Default` value (all zero: no bias). -/
structure DepthBiasState where
  constant : ℤ
  slope_scale : ℝ
  clamp : ℝ

def DepthBiasState.default : DepthBiasState := ⟨0, 0, 0⟩

/-- wgpu `DepthStencilState`. -/
structure DepthStencilState where
  format : TextureFormat
  depth_write_enabled : Bool
  depth_compare : CompareFunction
  stencil : StencilState
  bias : DepthBiasState

/-- wgpu `ColorTargetState` (`write_mask` as the raw `ColorWrites` bits;
`ColorWrites::ALL = 0xf`). -/
structure ColorTargetState where
  format : TextureFormat
  blend : Option BlendState
  write_mask : ℕ

/-- wgpu `FrontFace` / `Face` / `PolygonMode` / `PrimitiveTopology`, limited to
the constructors this program uses. -/
inductive FrontFace where
  | Ccw
  deriving DecidableEq

inductive Face where
  | Back
  deriving DecidableEq

inductive PolygonMode where
  | Fill
  deriving DecidableEq

inductive PrimitiveTopology where
  | TriangleList
  deriving DecidableEq

/-- wgpu `PrimitiveState`. -/
structure PrimitiveState where
  topology : PrimitiveTopology
  strip_index_format : Option ℕ
  front_face : FrontFace
  cull_mode : Option Face
  polygon_mode : PolygonMode
  unclipped_depth : Bool
  conservative : Bool

/-- wgpu `MultisampleState`. -/
structure MultisampleState where
  count : ℕ
  mask : ℕ
  alpha_to_coverage_enabled : Bool

/-- render_pipeline.rs `Properties` (shader module and pipeline layout are
identified by name/labels). -/
structure Properties where
  vs_main : String
  fs_main : String
  layout : List String
  color_format : TextureFormat
  depth_format : Option TextureFormat
  vertex_layouts : List String
  shader : String
  pass : Pass

/-- The compiled pipeline state object, as fully determined by the descriptor
`create_render_pipeline` builds. -/
structure RenderPipeline where
  label : String
  layout : List String
  vertex_module : String
  vertex_entry_point : String
  vertex_buffers : List String
  fragment_entry_point : String
  fragment_targets : List (Option ColorTargetState)
  primitive : PrimitiveState
  depth_stencil : Option DepthStencilState
  multisample : MultisampleState

/-- render_pipeline.rs `RenderPipelineVendor`: map from name to pipeline.  The
`HashMap` is embedded as a function map. -/
structure RenderPipelineVendor where
  pipelines : String → Option RenderPipeline

/-- The empty vendor (`Default`). -/
def RenderPipelineVendor.default : RenderPipelineVendor := ⟨fun _ => none⟩

namespace RenderPipelineVendor

/-- `RenderPipelineVendor::has_pipeline`. -/
def has_pipeline (v : RenderPipelineVendor) (named : String) : Bool :=
  (v.pipelines named).isSome

/-- `RenderPipelineVendor::get_pipeline`. -/
def get_pipeline (v : RenderPipelineVendor) (named : String) : Option RenderPipeline :=
  v.pipelines named

/-- `RenderPipelineVendor::create_render_pipeline(named, device, properties)`:
builds the descriptor (depth-write and blend selected from `properties.pass`),
inserts the pipeline under `named`, and returns it. -/
def create_render_pipeline (v : RenderPipelineVendor) (named : String)
    (properties : Properties) : RenderPipelineVendor × RenderPipeline :=
  let depth_write_enabled : Bool :=
    match properties.pass with
    | .Ambient => true
    | .Lit => false
  let blend_state : BlendState :=
    match properties.pass with
    | .Ambient => BlendState.REPLACE
    | .Lit => ⟨⟨.One, .One, .Add⟩, BlendComponent.OVER⟩
  let pipeline : RenderPipeline :=
    { label := "RenderPipeline: " ++ named
      layout := properties.layout
      vertex_module := properties.shader
      vertex_entry_point := properties.vs_main
      vertex_buffers := properties.vertex_layouts
      fragment_entry_point := properties.fs_main
      fragment_targets :=
        [some { format := properties.color_format
                blend := some blend_state
                write_mask := 0xf }]
      primitive :=
        { topology := .TriangleList
          strip_index_format := none
          front_face := .Ccw
          cull_mode := some .Back
          polygon_mode := .Fill
          unclipped_depth := false
          conservative := false }
      depth_stencil :=
        properties.depth_format.map fun format =>
          { format := format
            depth_write_enabled := depth_write_enabled
            depth_compare := .LessEqual
            stencil := StencilState.default
            bias := DepthBiasState.default }
      multisample := { count := 1, mask := 0xffffffff, alpha_to_coverage_enabled := false } }
  (⟨fun s => if s = named then some pipeline else v.pipelines s⟩, pipeline)

end RenderPipelineVendor

/-! ### Material, Instance, Model (src/lib/model.rs) -/

/-- model.rs `Material`, restricted to the state `prepare_pipelines` reads:
the two pass pipeline ids and the bind-group layout (by its label, which is the
material name).  Buffers, textures and bind groups are GPU handles. -/
structure Material where
  name : String
  ambient_pipeline_id : String
  lit_pipeline_id : String
  bind_group_layout : String

namespace Material

/-- `Material::pipeline_id(pass)`. -/
def pipeline_id (m : Material) : Pass → String
  | .Ambient => m.ambient_pipeline_id
  | .Lit => m.lit_pipeline_id

/-- `Material::vertex_main(pass)`. -/
def vertex_main (_ : Material) (_ : Pass) : String := "vs_main"

/-- `Material::fragment_main(pass)`. -/
def fragment_main (_ : Material) : Pass → String
  | .Ambient => "fs_main_ambient"
  | .Lit => "fs_main_lit"

/-- `Material::shader(pass)`. -/
def shader (_ : Material) (_ : Pass) : String := "shaders/model.wgsl"

/-- `Model::vertex_layout()`: vertex buffer layouts for mesh vertices and
instances, identified by name. -/
def model_vertex_layout : List String :=
  ["ModelVertex::vertex_buffer_layout", "Instance::vertex_buffer_layout"]

/-- The `render_pipeline::Properties` that `Material::prepare_pipelines`
assembles for one pass: entry points per pass, pipeline layout built from the
material, camera and light bind-group layouts in that order, the shader loaded
by name, and the color/depth formats from `texture::Texture`. -/
def passProperties (m : Material) (pass : Pass) : Properties where
  vs_main := m.vertex_main pass
  fs_main := m.fragment_main pass
  layout := [m.bind_group_layout, "CameraController::bind_group_layout",
             "Light::bind_group_layout"]
  color_format := .Bgra8UnormSrgb
  depth_format := some .Depth32Float
  vertex_layouts := model_vertex_layout
  shader := m.shader pass
  pass := pass

/-- The body of the per-pass loop of `Material::prepare_pipelines`: create the
pipeline only if the cache has no pipeline under that pass's id. -/
def prepStep (m : Material) (v : RenderPipelineVendor) (pass : Pass) :
    RenderPipelineVendor :=
  if v.has_pipeline (m.pipeline_id pass) then v
  else (v.create_render_pipeline (m.pipeline_id pass) (m.passProperties pass)).1

/-- `Material::prepare_pipelines(gpu_state)`: run the per-pass creation loop
over `[Pass::Ambient, Pass::Lit]`. -/
def prepare_pipelines (m : Material) (vendor : RenderPipelineVendor) :
    RenderPipelineVendor :=
  [Pass.Ambient, Pass.Lit].foldl (m.prepStep) vendor

end Material

/-- cgmath `Quaternion<f32>`: scalar part `s` and vector part `v`. -/
structure Quat where
  s : ℝ
  v : V3

/-- model.rs `Instance`. -/
structure Instance where
  position : V3
  rotation : Quat

/-- cgmath `Matrix3::from(Quaternion)` (columns). -/
def quatToM3 (q : Quat) : M3 :=
  let x2 := q.v.x + q.v.x
  let y2 := q.v.y + q.v.y
  let z2 := q.v.z + q.v.z
  let xx2 := x2 * q.v.x
  let xy2 := x2 * q.v.y
  let xz2 := x2 * q.v.z
  let yy2 := y2 * q.v.y
  let yz2 := y2 * q.v.z
  let zz2 := z2 * q.v.z
  let sy2 := y2 * q.s
  let sz2 := z2 * q.s
  let sx2 := x2 * q.s
  ⟨⟨1 - yy2 - zz2, xy2 + sz2, xz2 - sy2⟩,
   ⟨xy2 - sz2, 1 - xx2 - zz2, yz2 + sx2⟩,
   ⟨xz2 + sy2, yz2 - sx2, 1 - xx2 - yy2⟩⟩

/-- cgmath `Matrix4::from(Quaternion)` (the 3×3 rotation block of `quatToM3`
extended homogeneously; shown as rows). -/
def quatToM4 (q : Quat) : M4 :=
  let r := quatToM3 q
  !![r.c0.x, r.c1.x, r.c2.x, 0;
     r.c0.y, r.c1.y, r.c2.y, 0;
     r.c0.z, r.c1.z, r.c2.z, 0;
     0, 0, 0, 1]

/-- cgmath `Matrix4::from_translation(t)` (shown as rows). -/
def m4FromTranslation (t : V3) : M4 :=
  !![1, 0, 0, t.x;
     0, 1, 0, t.y;
     0, 0, 1, t.z;
     0, 0, 0, 1]

/-- model.rs `InstanceData`: the GPU mirror of an `Instance`. -/
structure InstanceData where
  model : M4
  normal_matrix : M3

/-- `Instance::as_data()`. -/
noncomputable def Instance.as_data (i : Instance) : InstanceData where
  model := m4FromTranslation i.position * quatToM4 i.rotation
  normal_matrix := quatToM3 i.rotation

/-- model.rs `Mesh` (vertex/index buffers are GPU handles). -/
structure Mesh where
  name : String
  num_elements : ℕ
  material : ℕ

/-- model.rs `Model`. -/
structure Model where
  meshes : List Mesh
  materials : List Material
  instances : List Instance
  instance_data : List InstanceData
  is_dirty : Bool

namespace Model

/-- `Model::new(device, meshes, materials, instances)`. -/
noncomputable def new (meshes : List Mesh) (materials : List Material)
    (instances : List Instance) : Model where
  meshes := meshes
  materials := materials
  instances := instances
  instance_data := instances.map Instance.as_data
  is_dirty := true

/-- `Model::prepare_pipelines(gpu_state)`. -/
def prepare_pipelines (m : Model) (vendor : RenderPipelineVendor) :
    RenderPipelineVendor :=
  m.materials.foldl (fun v mat => mat.prepare_pipelines v) vendor

/-- `Model::update_instance(at, to)`: in-range writes store and mark dirty;
out-of-range indices are ignored silently. -/
def update_instance (m : Model) (at_ : ℕ) (v : Instance) : Model :=
  if at_ < m.instances.length then
    { m with instances := m.instances.set at_ v, is_dirty := true }
  else m

/-- One iteration of the `Model::update_instances` loop: an in-range index is
written and `did_mutate` becomes true; an out-of-range entry leaves the
accumulator untouched. -/
def uiStep (acc : Model × Bool) (kv : ℕ × Instance) : Model × Bool :=
  if kv.1 < acc.1.instances.length then
    ({ acc.1 with instances := acc.1.instances.set kv.1 kv.2 }, true)
  else acc

/-- `Model::update_instances(updated_instances)`: iterate the map's entries,
writing each in-range index and remembering whether anything mutated; mark
dirty only if at least one write succeeded.  The `HashMap` is embedded as its
entry list. -/
def update_instances (m : Model) (updated_instances : List (ℕ × Instance)) : Model :=
  let fin := updated_instances.foldl uiStep (m, false)
  if fin.2 then { fin.1 with is_dirty := true } else fin.1

/-- The instance-data vector after `Model::update` re-packs it in place:
each slot covered by `instances.zip(instance_data)` is overwritten with
`as_data`; slots beyond the zip (if any) keep their old payload. -/
noncomputable def repacked (instances : List Instance) (data : List InstanceData) :
    List InstanceData :=
  List.zipWith (fun i _ => Instance.as_data i) instances data
    ++ data.drop instances.length

/-- `Model::update(queue)`: if dirty, re-pack the full instance vector into
`instance_data`, write it at offset 0, and clear the dirty flag; otherwise
no-op. -/
noncomputable def update (m : Model) : Model × List (WriteEvent (List InstanceData)) :=
  if m.is_dirty then
    let d := repacked m.instances m.instance_data
    ({ m with instance_data := d, is_dirty := false }, [(0, d)])
  else (m, [])

end Model

/-! ### CameraController (src/lib/camera.rs) and Scene (src/lib/scene.rs) -/

/-- camera.rs `CameraController`. -/
structure CameraController where
  keyboard_horizontal : ℝ
  keyboard_forward : ℝ
  keyboard_vertical : ℝ
  keyboard_yaw : ℝ
  keyboard_pitch : ℝ
  keyboard_shift_down : Bool
  mouse_yaw : ℝ
  mouse_pitch : ℝ
  zoom : ℝ
  speed : ℝ
  sensitivity : ℝ
  camera : Camera

namespace CameraController

/-- `CameraController::new(camera, speed, sensitivity)`. -/
def new (camera : Camera) (speed sensitivity : ℝ) : CameraController where
  keyboard_horizontal := 0
  keyboard_forward := 0
  keyboard_vertical := 0
  keyboard_yaw := 0
  keyboard_pitch := 0
  keyboard_shift_down := false
  mouse_yaw := 0
  mouse_pitch := 0
  zoom := 0
  speed := speed
  sensitivity := sensitivity
  camera := camera

/-- `CameraController::resize(new_size)`. -/
noncomputable def resize (cc : CameraController) (width height : ℕ) : CameraController :=
  { cc with camera := cc.camera.resize width height }

/-- `CameraController::update(queue, dt)` (`dt` in seconds). -/
noncomputable def update (cc : CameraController) (dt : ℝ) :
    CameraController × List (WriteEvent CameraUniform) :=
  let linear_vel := cc.speed * dt * (if cc.keyboard_shift_down then 3 else 1)
  let local_camera_translation : V3 :=
    ⟨cc.keyboard_horizontal * linear_vel, cc.keyboard_vertical * linear_vel,
     cc.keyboard_forward * (-linear_vel)⟩
  let cam1 :=
    if 1e-4 < local_camera_translation.quadrance then
      cc.camera.local_translate local_camera_translation
    else cc.camera
  let cam2 :=
    if 0 < |cc.mouse_yaw| ∨ 0 < |cc.mouse_pitch| then
      let mouse_angular_vel := cc.sensitivity * dt
      cam1.rotate_by (-cc.mouse_yaw * mouse_angular_vel) (-cc.mouse_pitch * mouse_angular_vel)
    else cam1
  let cam3 :=
    if 0 < |cc.keyboard_yaw| ∨ 0 < |cc.keyboard_pitch| then
      let keyboard_angular_vel := cc.speed * cc.sensitivity * dt
      cam2.rotate_by (cc.keyboard_yaw * keyboard_angular_vel)
        (cc.keyboard_pitch * keyboard_angular_vel)
    else cam2
  let fov := (45 + cc.zoom / 100 * 30) * Real.pi / 180
  let cam4 := cam3.set_fov_y fov
  let updated := cam4.update
  ({ cc with mouse_yaw := 0, mouse_pitch := 0, camera := updated.1 }, updated.2)

end CameraController

/-- The componentwise sum of the ambient colors of a set of lights
(`lights.values().fold(Vector3::zero(), |total, light| total + light.ambient())`). -/
def ambientSum (lights : List Light) : V3 :=
  lights.foldl (fun total light => V3.add total light.ambient) V3.zero

/-- scene.rs `Scene`.  The lights/models `HashMap`s are embedded as lists of
their values. -/
structure Scene where
  size : ℕ × ℕ
  camera_controller : CameraController
  ambient_light : Light
  lights : List Light
  models : List Model
  mouse_pressed : Bool
  time : ℝ

namespace Scene

/-- `Scene::new(gpu_state, camera, lights, models)`: build the controller,
resize it to the surface, prepare each model's pipelines in the shared cache,
and create the aggregate ambient light whose ambient is the sum of the source
lights' ambient terms. -/
noncomputable def new (vendor : RenderPipelineVendor) (size : ℕ × ℕ) (camera : Camera)
    (lights : List Light) (models : List Model) : Scene × RenderPipelineVendor :=
  let cc := (CameraController.new camera 4 0.4).resize size.1 size.2
  let vendor1 := models.foldl (fun v m => m.prepare_pipelines v) vendor
  let ambient_term := ambientSum lights
  let ambient_light := Light.new_ambient ⟨ambient_term⟩
  ({ size := size
     camera_controller := cc
     ambient_light := ambient_light
     lights := lights
     models := models
     mouse_pressed := false
     time := 0 }, vendor1)

/-- `Scene::update(gpu_state, dt)`: update the controller (and thereby the
camera), fold the lights' ambient terms into the aggregate ambient light and
update it, then update every light and every model; advance time. -/
noncomputable def update (s : Scene) (dt : ℝ) : Scene :=
  { s with
    camera_controller := (s.camera_controller.update dt).1
    ambient_light := (Light.update (s.ambient_light.set_ambient (ambientSum s.lights))).1
    lights := s.lights.map fun l => (Light.update l).1
    models := s.models.map fun m => (Model.update m).1
    time := s.time + dt }

end Scene

/-! ### Helper lemmas -/

theorem Light.update_fst_is_dirty (l : Light) (h : l.is_dirty = true) :
    (Light.update l).1.is_dirty = false := by
  simp only [Light.update, h, if_true]

theorem Light.update_not_dirty (l : Light) (h : l.is_dirty = false) :
    Light.update l = (l, []) := by
  simp only [Light.update, h, Bool.false_eq_true, if_false]

theorem Model.update_of_clean (m : Model) (h : m.is_dirty = false) :
    Model.update m = (m, []) := by
  simp only [Model.update, h, Bool.false_eq_true, if_false]

theorem Light.update_fst_ambient (l : Light) : (Light.update l).1.ambient = l.ambient := by
  by_cases h : l.is_dirty = true
  · simp only [Light.update, h, if_true]
  · simp only [Bool.not_eq_true] at h
    simp only [Light.update, h, Bool.false_eq_true, if_false]

/-! ### Claims -/

/-- C1: for every object with a dirty flag (the generic `UniformWrapper`,
`Camera`, `Light`, `Model`), two consecutive update/write calls with no
intervening mutation issue exactly one buffer write: the first call (on a
dirty object) writes the packed data at offset 0 and clears the dirty flag,
and the second call issues no write and leaves the object unchanged. -/
theorem uniform_write_economy :
    (∀ (D : Type) (w : UniformWrapper D), w.dirty = true →
      w.write.2 = [(0, w.data)] ∧ w.write.1.dirty = false ∧
        w.write.1.write = (w.write.1, [])) ∧
    (∀ c : Camera, c.is_dirty = true →
      c.update.2 = [(0, c.updated_uniform)] ∧ c.update.1.is_dirty = false ∧
        c.update.1.update = (c.update.1, [])) ∧
    (∀ l : Light, l.is_dirty = true →
      (Light.update l).2 = [(0, (Light.update l).1.uniform)] ∧
        (Light.update l).1.is_dirty = false ∧
        Light.update (Light.update l).1 = ((Light.update l).1, [])) ∧
    (∀ m : Model, m.is_dirty = true →
      (Model.update m).2 = [(0, (Model.update m).1.instance_data)] ∧
        (Model.update m).1.is_dirty = false ∧
        Model.update (Model.update m).1 = ((Model.update m).1, [])) := by
  refine ⟨fun D w h => ?_, fun c h => ?_, fun l h => ?_, fun m h => ?_⟩
  · simp [UniformWrapper.write, h]
  · simp [Camera.update, h]
  · refine ⟨?_, Light.update_fst_is_dirty l h, ?_⟩
    · simp only [Light.update, h, if_true]
    · exact Light.update_not_dirty _ (Light.update_fst_is_dirty l h)
  · have h1 : (Model.update m).1.is_dirty = false := by
      simp only [Model.update, h, if_true]
    refine ⟨?_, h1, ?_⟩
    · simp only [Model.update, h, if_true]
    · exact Model.update_of_clean _ h1

/-- A concrete dirty wrapper, camera, light and model for witnessing C1. -/
def wWrapper : UniformWrapper ℕ := ⟨7, true⟩

noncomputable def wCamera : Camera := Camera.new 800 600 1 (1 / 10) 100

def wLight : Light := Light.new_ambient ⟨⟨1, 0, 0⟩⟩

noncomputable def wModel : Model := Model.new [] [] []

/-- C1 witness: the write-economy theorem applied to a concrete dirty wrapper,
camera, light and model. -/
theorem uniform_write_economy_witness :
    (wWrapper.write.2 = [(0, wWrapper.data)] ∧ wWrapper.write.1.dirty = false ∧
      wWrapper.write.1.write = (wWrapper.write.1, [])) ∧
    (wCamera.update.2 = [(0, wCamera.updated_uniform)] ∧
      wCamera.update.1.is_dirty = false ∧
      wCamera.update.1.update = (wCamera.update.1, [])) ∧
    ((Light.update wLight).2 = [(0, (Light.update wLight).1.uniform)] ∧
      (Light.update wLight).1.is_dirty = false ∧
      Light.update (Light.update wLight).1 = ((Light.update wLight).1, [])) ∧
    ((Model.update wModel).2 = [(0, (Model.update wModel).1.instance_data)] ∧
      (Model.update wModel).1.is_dirty = false ∧
      Model.update (Model.update wModel).1 = ((Model.update wModel).1, [])) :=
  ⟨uniform_write_economy.1 ℕ wWrapper rfl,
   uniform_write_economy.2.1 wCamera rfl,
   uniform_write_economy.2.2.1 wLight rfl,
   uniform_write_economy.2.2.2 wModel rfl⟩

/-- C3: every pipeline produced by `create_render_pipeline` is determined by
`props.pass`: Ambient gives depth-write enabled and REPLACE color blending;
Lit gives depth-write disabled and additive (ONE, ONE, ADD) color blending with
alpha-over; and whenever a depth format is supplied the depth-stencil state
uses LessEqual compare, default stencil and no bias. -/
theorem pipeline_state_determined_by_pass (v : RenderPipelineVendor) (named : String)
    (props : Properties) :
    (props.pass = Pass.Ambient →
      (∀ ds ∈ ((v.create_render_pipeline named props).2).depth_stencil,
        ds.depth_write_enabled = true) ∧
      ((v.create_render_pipeline named props).2).fragment_targets =
        [some { format := props.color_format, blend := some BlendState.REPLACE,
                write_mask := 0xf }]) ∧
    (props.pass = Pass.Lit →
      (∀ ds ∈ ((v.create_render_pipeline named props).2).depth_stencil,
        ds.depth_write_enabled = false) ∧
      ((v.create_render_pipeline named props).2).fragment_targets =
        [some { format := props.color_format,
                blend := some { color := { src_factor := BlendFactor.One,
                                           dst_factor := BlendFactor.One,
                                           operation := BlendOperation.Add },
                                alpha := BlendComponent.OVER },
                write_mask := 0xf }]) ∧
    (∀ f, props.depth_format = some f →
      ∃ ds, ((v.create_render_pipeline named props).2).depth_stencil = some ds ∧
        ds.format = f ∧ ds.depth_compare = CompareFunction.LessEqual ∧
        ds.stencil = StencilState.default ∧ ds.bias = DepthBiasState.default) := by
  refine ⟨fun hp => ?_, fun hp => ?_, fun f hf => ?_⟩
  · simp [RenderPipelineVendor.create_render_pipeline, hp]
  · simp [RenderPipelineVendor.create_render_pipeline, hp]
  · cases hq : props.pass <;>
      simp [RenderPipelineVendor.create_render_pipeline, hq, hf]

/-- Concrete properties for witnessing C3 (ambient pass, depth format given). -/
def wProps : Properties where
  vs_main := "vs_main"
  fs_main := "fs_main_ambient"
  layout := ["m", "CameraController::bind_group_layout", "Light::bind_group_layout"]
  color_format := .Bgra8UnormSrgb
  depth_format := some .Depth32Float
  vertex_layouts := Material.model_vertex_layout
  shader := "shaders/model.wgsl"
  pass := .Ambient

/-- C3 witness: the pipeline-state theorem applied to a concrete ambient-pass
property set carrying a depth format. -/
theorem pipeline_state_determined_by_pass_witness :
    (∀ ds ∈ ((RenderPipelineVendor.default.create_render_pipeline "p" wProps).2).depth_stencil,
      ds.depth_write_enabled = true) ∧
    ((RenderPipelineVendor.default.create_render_pipeline "p" wProps).2).fragment_targets =
      [some { format := wProps.color_format, blend := some BlendState.REPLACE,
              write_mask := 0xf }] ∧
    (∃ ds, ((RenderPipelineVendor.default.create_render_pipeline "p" wProps).2).depth_stencil =
        some ds ∧ ds.format = TextureFormat.Depth32Float ∧
        ds.depth_compare = CompareFunction.LessEqual ∧
        ds.stencil = StencilState.default ∧ ds.bias = DepthBiasState.default) := by
  obtain ⟨h1, _, h3⟩ :=
    pipeline_state_determined_by_pass RenderPipelineVendor.default "p" wProps
  exact ⟨(h1 rfl).1, (h1 rfl).2, h3 TextureFormat.Depth32Float rfl⟩

theorem RenderPipelineVendor.has_pipeline_create_self (v : RenderPipelineVendor)
    (n : String) (p : Properties) :
    ((v.create_render_pipeline n p).1).has_pipeline n = true := by
  simp [RenderPipelineVendor.has_pipeline, RenderPipelineVendor.create_render_pipeline]

theorem RenderPipelineVendor.has_pipeline_create_mono (v : RenderPipelineVendor)
    (n n' : String) (p : Properties) (h : v.has_pipeline n' = true) :
    ((v.create_render_pipeline n p).1).has_pipeline n' = true := by
  simp only [RenderPipelineVendor.has_pipeline,
    RenderPipelineVendor.create_render_pipeline] at h ⊢
  by_cases hn : n' = n <;> simp [hn, h]

theorem Material.prepStep_has_self (m : Material) (v : RenderPipelineVendor) (pass : Pass) :
    ((m.prepStep v pass)).has_pipeline (m.pipeline_id pass) = true := by
  unfold Material.prepStep
  by_cases h : v.has_pipeline (m.pipeline_id pass) = true
  · simp [h]
  · simp only [h, Bool.false_eq_true, if_false]
    exact RenderPipelineVendor.has_pipeline_create_self v _ _

theorem Material.prepStep_has_mono (m : Material) (v : RenderPipelineVendor)
    (pass : Pass) (n' : String) (h : v.has_pipeline n' = true) :
    ((m.prepStep v pass)).has_pipeline n' = true := by
  unfold Material.prepStep
  by_cases hh : v.has_pipeline (m.pipeline_id pass) = true
  · simpa [hh]
  · simp only [hh, Bool.false_eq_true, if_false]
    exact RenderPipelineVendor.has_pipeline_create_mono v _ n' _ h

theorem Material.prepStep_of_has (m : Material) (v : RenderPipelineVendor) (pass : Pass)
    (h : v.has_pipeline (m.pipeline_id pass) = true) : m.prepStep v pass = v := by
  simp [Material.prepStep, h]

theorem Material.prepare_pipelines_eq (m : Material) (w : RenderPipelineVendor) :
    m.prepare_pipelines w = m.prepStep (m.prepStep w .Ambient) .Lit := by
  unfold Material.prepare_pipelines
  simp only [List.foldl_cons, List.foldl_nil]

/-- C4: `prepare_pipelines` is idempotent: after one invocation both pass ids
are present in the cache, so a second invocation inserts nothing and returns
the cache with its mapping unchanged. -/
theorem prepare_pipelines_idempotent (m : Material) (v : RenderPipelineVendor) :
    m.prepare_pipelines (m.prepare_pipelines v) = m.prepare_pipelines v := by
  have hamb : (m.prepare_pipelines v).has_pipeline (m.pipeline_id .Ambient) = true := by
    rw [Material.prepare_pipelines_eq]
    exact m.prepStep_has_mono _ _ _ (m.prepStep_has_self v .Ambient)
  have hlit : (m.prepare_pipelines v).has_pipeline (m.pipeline_id .Lit) = true := by
    rw [Material.prepare_pipelines_eq]
    exact m.prepStep_has_self _ .Lit
  rw [Material.prepare_pipelines_eq m (m.prepare_pipelines v),
    m.prepStep_of_has _ _ hamb, m.prepStep_of_has _ _ hlit]

/-- The list of instances after the `update_instances` loop, computed
list-level. -/
def Model.updIns : List (ℕ × Instance) → List Instance → List Instance
  | [], xs => xs
  | kv :: tl, xs => Model.updIns tl (if kv.1 < xs.length then xs.set kv.1 kv.2 else xs)

/-- The `did_mutate` flag after the `update_instances` loop, computed
list-level. -/
def Model.updDid : List (ℕ × Instance) → List Instance → Bool
  | [], _ => false
  | kv :: tl, xs =>
      decide (kv.1 < xs.length) ||
        Model.updDid tl (if kv.1 < xs.length then xs.set kv.1 kv.2 else xs)

theorem Model.uiFoldl_eq : ∀ (upd : List (ℕ × Instance)) (m : Model) (b : Bool),
    upd.foldl Model.uiStep (m, b) =
      ({ m with instances := Model.updIns upd m.instances },
       b || Model.updDid upd m.instances) := by
  intro upd
  induction upd with
  | nil => intro m b; simp [Model.updIns, Model.updDid]
  | cons kv tl ih =>
      intro m b
      by_cases h : kv.1 < m.instances.length
      · simp only [List.foldl_cons, Model.uiStep, h, if_true]
        rw [ih]
        simp [Model.updIns, Model.updDid, h]
      · simp only [List.foldl_cons, Model.uiStep, h, if_false]
        rw [ih]
        simp [Model.updIns, Model.updDid, h]

theorem Model.updIns_length : ∀ (upd : List (ℕ × Instance)) (xs : List Instance),
    (Model.updIns upd xs).length = xs.length := by
  intro upd
  induction upd with
  | nil => intro xs; simp [Model.updIns]
  | cons kv tl ih =>
      intro xs
      rw [Model.updIns, ih]
      split <;> simp

theorem Model.updIns_of_none : ∀ (upd : List (ℕ × Instance)) (xs : List Instance),
    (∀ kv ∈ upd, ¬ kv.1 < xs.length) → Model.updIns upd xs = xs := by
  intro upd
  induction upd with
  | nil => intro xs _; rfl
  | cons kv tl ih =>
      intro xs h
      rw [Model.updIns, if_neg (h kv (List.mem_cons_self kv tl))]
      exact ih xs fun kv' hm => h kv' (List.mem_cons_of_mem kv hm)

theorem Model.updDid_of_none : ∀ (upd : List (ℕ × Instance)) (xs : List Instance),
    (∀ kv ∈ upd, ¬ kv.1 < xs.length) → Model.updDid upd xs = false := by
  intro upd
  induction upd with
  | nil => intro xs _; rfl
  | cons kv tl ih =>
      intro xs h
      have h0 := h kv (List.mem_cons_self kv tl)
      rw [Model.updDid, if_neg h0]
      simp only [h0, decide_False, Bool.false_or]
      exact ih xs fun kv' hm => h kv' (List.mem_cons_of_mem kv hm)

theorem Model.updIns_spec (i : ℕ) (v : Instance) :
    ∀ (upd : List (ℕ × Instance)) (xs : List Instance), i < xs.length →
    (∀ kv ∈ upd, kv.1 = i → kv.2 = v) →
    (∀ kv ∈ upd, kv.1 ≠ i → ¬ kv.1 < xs.length) →
    (∃ kv ∈ upd, kv.1 = i) →
    Model.updIns upd xs = xs.set i v ∧ Model.updDid upd xs = true := by
  intro upd
  induction upd with
  | nil =>
      intro xs _ _ _ hex
      exact absurd hex (by simp)
  | cons kv tl ih =>
      intro xs hi hkey hout hex
      by_cases hk : kv.1 = i
      · have hv : kv.2 = v := hkey kv (List.mem_cons_self kv tl) hk
        have hlt : kv.1 < xs.length := hk ▸ hi
        rw [Model.updIns, if_pos hlt, Model.updDid, if_pos hlt, hk, hv]
        refine ⟨?_, by simp only [Bool.or_eq_true, decide_eq_true_iff]; exact Or.inl hi⟩
        by_cases hex' : ∃ kv' ∈ tl, kv'.1 = i
        · have := (ih (xs.set i v) (by simpa using hi)
            (fun kv' hm => hkey kv' (List.mem_cons_of_mem kv hm))
            (fun kv' hm hne => by
              simpa using hout kv' (List.mem_cons_of_mem kv hm) hne)
            hex').1
          rw [this, List.set_set]
        · rw [Model.updIns_of_none tl (xs.set i v) ?_]
          intro kv' hm
          by_cases hk' : kv'.1 = i
          · exact absurd ⟨kv', hm, hk'⟩ hex'
          · simpa using hout kv' (List.mem_cons_of_mem kv hm) hk'
      · have hnr : ¬ kv.1 < xs.length := hout kv (List.mem_cons_self kv tl) hk
        rw [Model.updIns, if_neg hnr, Model.updDid, if_neg hnr]
        simp only [hnr, decide_False, Bool.false_or]
        refine ih xs hi (fun kv' hm => hkey kv' (List.mem_cons_of_mem kv hm))
          (fun kv' hm hne => hout kv' (List.mem_cons_of_mem kv hm) hne) ?_
        rcases hex with ⟨kv', hm, hk'⟩
        rcases List.mem_cons.mp hm with rfl | hm'
        · exact absurd hk' hk
        · exact ⟨kv', hm', hk'⟩

/-- C8: `update_instances` on a map holding one in-range index `i → v` (all
other entries out of range) silently ignores the out-of-range entries, stores
`v` at `i`, and marks the model dirty; the next `update` then writes the full
re-packed instance vector, whose entry at `i` reflects `v`.  A call whose
every index is out of range leaves the model (dirty flag included) unchanged. -/
theorem instance_update_partiality :
    (∀ (m : Model) (upd : List (ℕ × Instance)) (i : ℕ) (v : Instance),
      i < m.instances.length →
      (i, v) ∈ upd →
      (∀ kv ∈ upd, kv.1 = i → kv.2 = v) →
      (∀ kv ∈ upd, kv.1 ≠ i → ¬ kv.1 < m.instances.length) →
      m.instance_data.length = m.instances.length →
      (m.update_instances upd).is_dirty = true ∧
      (m.update_instances upd).instances[i]? = some v ∧
      (∀ k, k ≠ i → (m.update_instances upd).instances[k]? = m.instances[k]?) ∧
      (Model.update (m.update_instances upd)).2 =
        [(0, (Model.update (m.update_instances upd)).1.instance_data)] ∧
      ((Model.update (m.update_instances upd)).1.instance_data)[i]? =
        some (Instance.as_data v)) ∧
    (∀ (m : Model) (upd : List (ℕ × Instance)),
      (∀ kv ∈ upd, ¬ kv.1 < m.instances.length) →
      m.update_instances upd = m) := by
  constructor
  · intro m upd i v hi hmem hkey hout hlen
    obtain ⟨hins, hdid⟩ := Model.updIns_spec i v upd m.instances hi hkey hout
      ⟨(i, v), hmem, rfl⟩
    have hm1 : m.update_instances upd =
        { m with instances := m.instances.set i v, is_dirty := true } := by
      rw [Model.update_instances, Model.uiFoldl_eq, hins, hdid]
      simp
    rw [hm1]
    refine ⟨rfl, List.getElem?_set_self hi, fun k hk => List.getElem?_set_ne (Ne.symm hk), ?_, ?_⟩
    · simp only [Model.update, if_true]
    · simp only [Model.update, if_true]
      rw [Model.repacked, List.drop_eq_nil_of_le (by simp [hlen]), List.append_nil,
        List.getElem?_zipWith, List.getElem?_set_self hi]
      have hd : i < m.instance_data.length := hlen ▸ hi
      rw [List.getElem?_eq_getElem hd]
  · intro m upd hout
    rw [Model.update_instances, Model.uiFoldl_eq, Model.updIns_of_none upd m.instances hout,
      Model.updDid_of_none upd m.instances hout]
    simp

/-- Concrete instances and a two-instance model for witnessing C8. -/
def wInstA : Instance := ⟨⟨1, 2, 3⟩, ⟨1, ⟨0, 0, 0⟩⟩⟩

def wInstB : Instance := ⟨⟨4, 5, 6⟩, ⟨1, ⟨0, 0, 0⟩⟩⟩

def wInstC : Instance := ⟨⟨7, 8, 9⟩, ⟨0, ⟨1, 0, 0⟩⟩⟩

noncomputable def wModel2 : Model := Model.new [] [] [wInstA, wInstB]

/-- C8 witness: the partial-update theorem applied to a concrete two-instance
model, with an in-range entry `0 → wInstC` and an out-of-range entry `5`. -/
theorem instance_update_partiality_witness :
    ((wModel2.update_instances [(0, wInstC), (5, wInstB)]).is_dirty = true ∧
      (wModel2.update_instances [(0, wInstC), (5, wInstB)]).instances[0]? = some wInstC ∧
      (Model.update (wModel2.update_instances [(0, wInstC), (5, wInstB)])).1.instance_data[0]? =
        some (Instance.as_data wInstC)) ∧
    wModel2.update_instances [(5, wInstB)] = wModel2 := by
  have hlen : wModel2.instances.length = 2 := by
    simp [wModel2, Model.new, wInstA, wInstB]
  have hdlen : wModel2.instance_data.length = wModel2.instances.length := by
    simp [wModel2, Model.new]
  have h1 := instance_update_partiality.1 wModel2 [(0, wInstC), (5, wInstB)] 0 wInstC
    (by rw [hlen]; norm_num)
    (List.mem_cons_self _ _)
    (by
      rintro kv hm h0
      rcases List.mem_cons.mp hm with rfl | hm'
      · rfl
      · rcases List.mem_cons.mp hm' with rfl | hm''
        · exact absurd h0 (by norm_num)
        · exact absurd hm'' (List.not_mem_nil kv))
    (by
      rintro kv hm hne
      rcases List.mem_cons.mp hm with rfl | hm'
      · exact absurd rfl hne
      · rcases List.mem_cons.mp hm' with rfl | hm''
        · rw [hlen]; norm_num
        · exact absurd hm'' (List.not_mem_nil kv))
    hdlen
  have h2 := instance_update_partiality.2 wModel2 [(5, wInstB)]
    (by
      rintro kv hm
      rcases List.mem_cons.mp hm with rfl | hm'
      · rw [hlen]; norm_num
      · exact absurd hm' (List.not_mem_nil kv))
  exact ⟨⟨h1.1, h1.2.1, h1.2.2.2.2⟩, h2⟩

theorem V3.distance2_self (a : V3) : V3.distance2 a a = 0 := by
  simp [V3.distance2, V3.sub, V3.quadrance]

theorem ambientSum_map_update (ls : List Light) :
    ambientSum (ls.map fun l => (Light.update l).1) = ambientSum ls := by
  rw [ambientSum, ambientSum]
  suffices h : ∀ t : V3,
      List.foldl (fun total light => V3.add total light.ambient) t
        (ls.map fun l => (Light.update l).1) =
      List.foldl (fun total light => V3.add total light.ambient) t ls from h _
  induction ls with
  | nil => intro t; rfl
  | cons hd tl ih =>
      intro t
      simp only [List.map_cons, List.foldl_cons, Light.update_fst_ambient]
      exact ih _

/-- C2 counterexample input: a scene whose source light's ambient has drifted
(through two legitimate `set_ambient` calls, each exceeding the epsilon) to a
value whose distance-squared from the aggregate is below `EPSILON`, so the
aggregate's `set_ambient` skips the update. -/
noncomputable def cexSrcLight : Light :=
  Light.set_ambient
    (Light.set_ambient (Light.new_ambient ⟨⟨1 / 50, 0, 0⟩⟩) ⟨7 / 200, 0, 0⟩)
    ⟨3 / 125, 0, 0⟩

noncomputable def cexScene : Scene :=
  { (Scene.new RenderPipelineVendor.default (800, 600) (Camera.new 800 600 1 (1 / 10) 100)
      [Light.new_ambient ⟨⟨1 / 50, 0, 0⟩⟩] []).1 with
    lights := [cexSrcLight] }

theorem cexSrcLight_ambient : cexSrcLight.ambient = ⟨3 / 125, 0, 0⟩ := by
  rw [cexSrcLight, Light.set_ambient, Light.set_ambient]
  split_ifs with h1 h2 h2
  · rfl
  · exfalso
    apply h2
    norm_num [Light.new_ambient, V3.distance2, V3.sub, V3.quadrance, EPSILON] at h1 ⊢
  · rfl
  · exfalso
    apply h1
    norm_num [Light.new_ambient, V3.distance2, V3.sub, V3.quadrance, EPSILON]

/-- C2 counterexample: after `Scene.update`, the aggregate ambient light's
color differs from the componentwise sum of the lights' ambient colors,
because the aggregate's `set_ambient` skipped a change whose squared distance
was below the 1e-4 epsilon. -/
theorem aggregate_ambient_counterexample :
    (Scene.update cexScene 1).ambient_light.ambient ≠
      ambientSum ((Scene.update cexScene 1).lights) := by
  have hAgg : cexScene.ambient_light.ambient = ⟨0 + (1 / 50), 0 + 0, 0 + 0⟩ := by
    simp [cexScene, Scene.new, ambientSum, Light.new_ambient, V3.add, V3.zero]
  have hL : (Scene.update cexScene 1).ambient_light.ambient = ⟨0 + (1 / 50), 0 + 0, 0 + 0⟩ := by
    simp only [Scene.update, Light.update_fst_ambient, Light.set_ambient]
    split_ifs with h
    · exfalso
      rw [hAgg] at h
      simp only [cexScene] at h
      norm_num [ambientSum, cexSrcLight_ambient, V3.add, V3.zero, V3.distance2, V3.sub,
        V3.quadrance, EPSILON] at h
    · exact hAgg
  have hR : ambientSum ((Scene.update cexScene 1).lights) = ⟨0 + (3 / 125), 0 + 0, 0 + 0⟩ := by
    simp only [Scene.update]
    have : cexScene.lights = [cexSrcLight] := rfl
    rw [this]
    simp [ambientSum, List.map_cons, Light.update_fst_ambient, cexSrcLight_ambient,
      V3.add, V3.zero]
  rw [hL, hR]
  intro h
  have := congrArg V3.x h
  norm_num at this

/-- C2 (amended): after every `Scene.update` the aggregate ambient light's
color is within squared distance 1e-4 of the componentwise sum of the lights'
ambient colors: `set_ambient` stores the sum exactly when the squared distance
exceeds the epsilon and leaves the previous aggregate (within the epsilon)
otherwise. -/
theorem aggregate_ambient_within_epsilon (s : Scene) (dt : ℝ) :
    V3.distance2 ((Scene.update s dt).ambient_light.ambient)
      (ambientSum ((Scene.update s dt).lights)) ≤ EPSILON := by
  have hR : ambientSum ((Scene.update s dt).lights) = ambientSum s.lights := by
    simp only [Scene.update]
    exact ambientSum_map_update s.lights
  rw [hR]
  simp only [Scene.update, Light.update_fst_ambient, Light.set_ambient]
  split_ifs with h
  · rw [V3.distance2_self]
    norm_num [EPSILON]
  · exact not_lt.mp h

/-- Nonnegativity of the first three staged uniform attenuation components. -/
def UniformAttenOk (u : LightUniform) : Prop :=
  0 ≤ u.attenuation.x ∧ 0 ≤ u.attenuation.y ∧ 0 ≤ u.attenuation.z

theorem Light.update_uniformAttenOk (l : Light) (h : UniformAttenOk l.uniform) :
    UniformAttenOk (Light.update l).1.uniform := by
  rw [Light.update]
  split_ifs with hd
  · cases hlt : l.light_type <;>
      simp only [UniformAttenOk, hlt] <;>
      refine ⟨?_, ?_, ?_⟩ <;>
      norm_num
  · exact h

theorem LightOp.apply_uniformAttenOk (l : Light) (op : LightOp)
    (h : UniformAttenOk l.uniform) : UniformAttenOk (op.apply l).uniform := by
  cases op with
  | setAmbient v => rw [LightOp.apply, Light.set_ambient]; split_ifs <;> exact h
  | setPosition v => rw [LightOp.apply, Light.set_position]; split_ifs <;> exact h
  | setDirection v => rw [LightOp.apply, Light.set_direction]; split_ifs <;> exact h
  | setColor v => rw [LightOp.apply, Light.set_color]; split_ifs <;> exact h
  | setConstantAttenuation a =>
      rw [LightOp.apply, Light.set_constant_attenuation]; split_ifs <;> exact h
  | setLinearAttenuation a =>
      rw [LightOp.apply, Light.set_linear_attenuation]; split_ifs <;> exact h
  | setExponentialAttenuation a =>
      rw [LightOp.apply, Light.set_exponential_attenuation]; split_ifs <;> exact h
  | setSpotBreadth b => rw [LightOp.apply, Light.set_spot_breadth]; split_ifs <;> exact h
  | update => exact Light.update_uniformAttenOk l h

theorem runLightOps_uniformAttenOk (ops : List LightOp) :
    ∀ l : Light, UniformAttenOk l.uniform →
      UniformAttenOk (runLightOps l ops).uniform := by
  induction ops with
  | nil => intro l h; exact h
  | cons op tl ih =>
      intro l h
      rw [runLightOps, List.foldl_cons]
      exact ih _ (LightOp.apply_uniformAttenOk l op h)

theorem LightCtor.build_uniform (c : LightCtor) : (c.build).uniform = LightUniform.default := by
  cases c <;> rfl

/-- C6 (amended): the constructors clamp the three attenuation coefficients to
be nonnegative, and whatever the stored fields are, the staged uniform's first
three attenuation components are nonnegative in every reachable state because
`Light::update` re-clamps them; the setters themselves, however, store
caller-supplied values unclamped (see the counterexample). -/
theorem attenuation_clamping_amended :
    (∀ c : LightCtor,
      0 ≤ (c.build).constant_attenuation ∧ 0 ≤ (c.build).linear_attenuation ∧
        0 ≤ (c.build).exponential_attenuation) ∧
    (∀ (c : LightCtor) (ops : List LightOp),
      UniformAttenOk (runLightOps c.build ops).uniform) := by
  constructor
  · intro c
    cases c <;>
      simp only [LightCtor.build, Light.new_ambient, Light.new_point, Light.new_spot,
        Light.new_directional] <;>
      refine ⟨?_, ?_, ?_⟩ <;>
      first
        | exact le_max_right _ _
        | norm_num
  · intro c ops
    refine runLightOps_uniformAttenOk ops c.build ?_
    rw [LightCtor.build_uniform]
    exact ⟨le_refl 0, le_refl 0, le_refl 0⟩

/-- A concrete point-light descriptor for the C6/C7/C10 developments. -/
def cexPointDesc : PointLightDescriptor := ⟨V3.zero, V3.zero, V3.zero, 1, 0, 0⟩

/-- C6 counterexample: `set_constant_attenuation(-1)` on a fresh point light
stores the negative coefficient verbatim, so a reachable state violates
`attenuation[0] ≥ 0`. -/
theorem attenuation_clamping_counterexample :
    ((Light.new_point cexPointDesc).set_constant_attenuation (-1)).constant_attenuation < 0 := by
  have hc : (Light.new_point cexPointDesc).constant_attenuation = 1 := by
    show max (1 : ℝ) 0 = 1
    norm_num
  rw [Light.set_constant_attenuation]
  split_ifs with h
  · norm_num
  · exfalso
    apply h
    rw [hc]
    norm_num [EPSILON]

/-- C7 counterexample: `Camera::set_fov_y` does not perform an epsilon
comparison: a new value within 1e-4 of the current one is still stored (and
the camera marked dirty), because the source compares with exact `!=`. -/
theorem setter_epsilon_counterexample :
    |(1 + 1 / 100000) - (Camera.new 800 600 1 (1 / 10) 100).fov_y| ≤ EPSILON ∧
    ((Camera.new 800 600 1 (1 / 10) 100).set_fov_y (1 + 1 / 100000)).fov_y ≠
      (Camera.new 800 600 1 (1 / 10) 100).fov_y := by
  have hf : (Camera.new 800 600 1 (1 / 10) 100).fov_y = 1 := rfl
  constructor
  · rw [hf]
    rw [show |(1 + 1 / 100000 : ℝ) - 1| = 1 / 100000 by rw [abs_of_pos] <;> norm_num]
    norm_num [EPSILON]
  · rw [Camera.set_fov_y, hf]
    split_ifs with h
    · show (1 + 1 / 100000 : ℝ) ≠ 1
      norm_num
    · exfalso
      push_neg at h
      norm_num at h

/-- C7 (amended): each mutating setter compares the new value against the
current one before storing and marking dirty, but the comparison differs per
setter: the vector setters (`set_ambient`, `set_position`, `set_direction`,
`set_color`) compare the squared distance against 1e-4; the three scalar
attenuation setters compare the absolute difference against 1e-4; and
`set_spot_breadth` and `Camera::set_fov_y` compare exactly, storing any
change however small. -/
theorem setter_comparison_semantics (l : Light) (c : Camera) (v p d col : V3)
    (a1 a2 a3 b f : ℝ) :
    (V3.distance2 l.ambient v ≤ EPSILON → l.set_ambient v = l) ∧
    (EPSILON < V3.distance2 l.ambient v →
      (l.set_ambient v).ambient = v ∧ (l.set_ambient v).is_dirty = true) ∧
    (V3.distance2 l.position p ≤ EPSILON → l.set_position p = l) ∧
    (EPSILON < V3.distance2 l.position p →
      (l.set_position p).position = p ∧ (l.set_position p).is_dirty = true) ∧
    (V3.distance2 l.direction d ≤ EPSILON → l.set_direction d = l) ∧
    (EPSILON < V3.distance2 l.direction d →
      (l.set_direction d).direction = d ∧ (l.set_direction d).is_dirty = true) ∧
    (V3.distance2 l.color col ≤ EPSILON → l.set_color col = l) ∧
    (EPSILON < V3.distance2 l.color col →
      (l.set_color col).color = col ∧ (l.set_color col).is_dirty = true) ∧
    (|a1 - l.constant_attenuation| ≤ EPSILON → l.set_constant_attenuation a1 = l) ∧
    (EPSILON < |a1 - l.constant_attenuation| →
      (l.set_constant_attenuation a1).constant_attenuation = a1 ∧
        (l.set_constant_attenuation a1).is_dirty = true) ∧
    (|a2 - l.linear_attenuation| ≤ EPSILON → l.set_linear_attenuation a2 = l) ∧
    (EPSILON < |a2 - l.linear_attenuation| →
      (l.set_linear_attenuation a2).linear_attenuation = a2 ∧
        (l.set_linear_attenuation a2).is_dirty = true) ∧
    (|a3 - l.exponential_attenuation| ≤ EPSILON → l.set_exponential_attenuation a3 = l) ∧
    (EPSILON < |a3 - l.exponential_attenuation| →
      (l.set_exponential_attenuation a3).exponential_attenuation = a3 ∧
        (l.set_exponential_attenuation a3).is_dirty = true) ∧
    (b = l.spot_breadth → l.set_spot_breadth b = l) ∧
    (b ≠ l.spot_breadth →
      (l.set_spot_breadth b).spot_breadth = b ∧ (l.set_spot_breadth b).is_dirty = true) ∧
    (f = c.fov_y → c.set_fov_y f = c) ∧
    (f ≠ c.fov_y →
      (c.set_fov_y f).fov_y = f ∧ (c.set_fov_y f).is_dirty = true) := by
  refine ⟨fun h => ?_, fun h => ?_, fun h => ?_, fun h => ?_, fun h => ?_, fun h => ?_,
    fun h => ?_, fun h => ?_, fun h => ?_, fun h => ?_, fun h => ?_, fun h => ?_,
    fun h => ?_, fun h => ?_, fun h => ?_, fun h => ?_, fun h => ?_, fun h => ?_⟩
  · rw [Light.set_ambient, if_neg (not_lt.mpr h)]
  · rw [Light.set_ambient, if_pos h]; exact ⟨rfl, rfl⟩
  · rw [Light.set_position, if_neg (not_lt.mpr h)]
  · rw [Light.set_position, if_pos h]; exact ⟨rfl, rfl⟩
  · rw [Light.set_direction, if_neg (not_lt.mpr h)]
  · rw [Light.set_direction, if_pos h]; exact ⟨rfl, rfl⟩
  · rw [Light.set_color, if_neg (not_lt.mpr h)]
  · rw [Light.set_color, if_pos h]; exact ⟨rfl, rfl⟩
  · rw [Light.set_constant_attenuation, if_neg (not_lt.mpr h)]
  · rw [Light.set_constant_attenuation, if_pos h]; exact ⟨rfl, rfl⟩
  · rw [Light.set_linear_attenuation, if_neg (not_lt.mpr h)]
  · rw [Light.set_linear_attenuation, if_pos h]; exact ⟨rfl, rfl⟩
  · rw [Light.set_exponential_attenuation, if_neg (not_lt.mpr h)]
  · rw [Light.set_exponential_attenuation, if_pos h]; exact ⟨rfl, rfl⟩
  · rw [Light.set_spot_breadth, if_neg (not_not_intro h)]
  · rw [Light.set_spot_breadth, if_pos h]; exact ⟨rfl, rfl⟩
  · rw [Camera.set_fov_y, if_neg (not_not_intro h)]
  · rw [Camera.set_fov_y, if_pos h]; exact ⟨rfl, rfl⟩

/-- C7 witness: the setter-semantics theorem applied to a fresh point light and
a fresh camera: a small ambient change is skipped, a large attenuation change
is stored and dirties, and a fov change is stored. -/
theorem setter_comparison_semantics_witness :
    (Light.new_point cexPointDesc).set_ambient ⟨1 / 200, 0, 0⟩ = Light.new_point cexPointDesc ∧
    ((Light.new_point cexPointDesc).set_constant_attenuation 2).constant_attenuation = 2 ∧
    ((Light.new_point cexPointDesc).set_constant_attenuation 2).is_dirty = true ∧
    ((Camera.new 800 600 1 (1 / 10) 100).set_fov_y 2).fov_y = 2 := by
  have hamb : (Light.new_point cexPointDesc).ambient = V3.zero := rfl
  have hca : (Light.new_point cexPointDesc).constant_attenuation = 1 := by
    show max (1 : ℝ) 0 = 1
    norm_num
  have h := setter_comparison_semantics (Light.new_point cexPointDesc)
    (Camera.new 800 600 1 (1 / 10) 100) ⟨1 / 200, 0, 0⟩ V3.zero V3.zero V3.zero 2 0 0 0 2
  refine ⟨h.1 ?_, (h.2.2.2.2.2.2.2.2.2.1 ?_).1, (h.2.2.2.2.2.2.2.2.2.1 ?_).2, ?_⟩
  · rw [hamb]
    norm_num [V3.distance2, V3.sub, V3.quadrance, V3.zero, EPSILON]
  · rw [hca]
    norm_num [EPSILON]
  · rw [hca]
    norm_num [EPSILON]
  · refine ((h.2.2.2.2.2.2.2.2.2.2.2.2.2.2.2.2.2) ?_).1
    show (2 : ℝ) ≠ 1
    norm_num

theorem V3.quadrance_nonneg (a : V3) : 0 ≤ a.quadrance := by
  rw [V3.quadrance]
  nlinarith [mul_self_nonneg a.x, mul_self_nonneg a.y, mul_self_nonneg a.z]

theorem V3.quadrance_eq_zero_iff (a : V3) : a.quadrance = 0 ↔ a = V3.zero := by
  constructor
  · intro h
    rw [V3.quadrance] at h
    have hx : a.x = 0 := by
      nlinarith [mul_self_nonneg a.x, mul_self_nonneg a.y, mul_self_nonneg a.z]
    have hy : a.y = 0 := by
      nlinarith [mul_self_nonneg a.x, mul_self_nonneg a.y, mul_self_nonneg a.z]
    have hz : a.z = 0 := by
      nlinarith [mul_self_nonneg a.x, mul_self_nonneg a.y, mul_self_nonneg a.z]
    ext <;> simp [V3.zero, hx, hy, hz]
  · intro h
    rw [h]
    norm_num [V3.quadrance, V3.zero]

theorem V3.quadrance_smul (s : ℝ) (a : V3) :
    (V3.smul s a).quadrance = s ^ 2 * a.quadrance := by
  rw [V3.smul, V3.quadrance, V3.quadrance]
  ring

theorem V3.magnitude_pos (a : V3) (h : a ≠ V3.zero) : 0 < a.magnitude := by
  rw [V3.magnitude]
  apply Real.sqrt_pos.mpr
  rcases lt_or_eq_of_le (V3.quadrance_nonneg a) with hq | hq
  · exact hq
  · exact absurd ((V3.quadrance_eq_zero_iff a).mp hq.symm) h

theorem V3.quadrance_normalize (a : V3) (h : a ≠ V3.zero) :
    (V3.normalize a).quadrance = 1 := by
  have hsq : a.magnitude ^ 2 = a.quadrance := Real.sq_sqrt (V3.quadrance_nonneg a)
  have hq : a.quadrance ≠ 0 := fun hq0 => absurd ((V3.quadrance_eq_zero_iff a).mp hq0) h
  rw [V3.normalize, V3.quadrance_smul, div_pow, one_pow, hsq, one_div, inv_mul_cancel₀ hq]

theorem V3.magnitude_normalize (a : V3) (h : a ≠ V3.zero) :
    (V3.normalize a).magnitude = 1 := by
  rw [V3.magnitude, V3.quadrance_normalize a h, Real.sqrt_one]

/-- Whether a public-API call is `set_direction`. -/
def LightOp.isSetDirection : LightOp → Bool
  | .setDirection _ => true
  | _ => false

/-- The nondegeneracy condition on a light constructor's direction input. -/
def LightCtor.directionNonzero : LightCtor → Prop
  | .spot d => d.direction ≠ V3.zero
  | .directional d => d.direction ≠ V3.zero
  | _ => True

theorem Light.update_fst_direction (l : Light) : (Light.update l).1.direction = l.direction := by
  rw [Light.update]
  split_ifs <;> rfl

theorem Light.update_fst_light_type (l : Light) :
    (Light.update l).1.light_type = l.light_type := by
  rw [Light.update]
  split_ifs <;> rfl

theorem runLightOps_direction_of_no_set (ops : List LightOp)
    (hops : ∀ op ∈ ops, op.isSetDirection = false) :
    ∀ l : Light, (runLightOps l ops).direction = l.direction ∧
      (runLightOps l ops).light_type = l.light_type := by
  induction ops with
  | nil => intro l; exact ⟨rfl, rfl⟩
  | cons op tl ih =>
      intro l
      have hstep : runLightOps l (op :: tl) = runLightOps (LightOp.apply l op) tl := rfl
      rw [hstep]
      have htl := ih (fun o hm => hops o (List.mem_cons_of_mem op hm)) (LightOp.apply l op)
      have hop : (op.apply l).direction = l.direction ∧
          (op.apply l).light_type = l.light_type := by
        cases op with
        | setAmbient v => rw [LightOp.apply, Light.set_ambient]; split_ifs <;> exact ⟨rfl, rfl⟩
        | setPosition v => rw [LightOp.apply, Light.set_position]; split_ifs <;> exact ⟨rfl, rfl⟩
        | setDirection v =>
            exact absurd (hops _ (List.mem_cons_self _ tl)) (by rw [LightOp.isSetDirection]; simp)
        | setColor v => rw [LightOp.apply, Light.set_color]; split_ifs <;> exact ⟨rfl, rfl⟩
        | setConstantAttenuation a =>
            rw [LightOp.apply, Light.set_constant_attenuation]; split_ifs <;> exact ⟨rfl, rfl⟩
        | setLinearAttenuation a =>
            rw [LightOp.apply, Light.set_linear_attenuation]; split_ifs <;> exact ⟨rfl, rfl⟩
        | setExponentialAttenuation a =>
            rw [LightOp.apply, Light.set_exponential_attenuation]
            split_ifs <;> exact ⟨rfl, rfl⟩
        | setSpotBreadth b =>
            rw [LightOp.apply, Light.set_spot_breadth]; split_ifs <;> exact ⟨rfl, rfl⟩
        | update =>
            exact ⟨Light.update_fst_direction l, Light.update_fst_light_type l⟩
      exact ⟨htl.1.trans hop.1, htl.2.trans hop.2⟩

/-- C5 (amended): for a Spot or Directional light built from a nonzero
descriptor direction, the stored direction has unit length (within 1e-4) in
every state reachable without calling `set_direction`: the constructors
normalize, and every other public operation leaves the stored direction
untouched.  `set_direction` itself stores its argument verbatim, so it can
break the invariant (see the counterexample); `update` re-normalizes only the
staged uniform copy. -/
theorem direction_normalization_amended (c : LightCtor) (ops : List LightOp)
    (hops : ∀ op ∈ ops, op.isSetDirection = false)
    (hnz : c.directionNonzero)
    (htype : (runLightOps c.build ops).light_type = LightType.Spot ∨
      (runLightOps c.build ops).light_type = LightType.Directional) :
    |V3.magnitude (runLightOps c.build ops).direction - 1| ≤ EPSILON := by
  obtain ⟨hdir, hty⟩ := runLightOps_direction_of_no_set ops hops c.build
  rw [hdir]
  rw [hty] at htype
  cases c with
  | ambient d => rcases htype with h | h <;> exact absurd h (by rw [LightCtor.build]; simp [Light.new_ambient])
  | point d => rcases htype with h | h <;> exact absurd h (by rw [LightCtor.build]; simp [Light.new_point])
  | spot d =>
      have : (LightCtor.spot d).build.direction = V3.normalize d.direction := rfl
      rw [this, V3.magnitude_normalize d.direction hnz]
      norm_num [EPSILON]
  | directional d =>
      have : (LightCtor.directional d).build.direction = V3.normalize d.direction := rfl
      rw [this, V3.magnitude_normalize d.direction hnz]
      norm_num [EPSILON]

/-- A concrete spot-light descriptor (unit direction input). -/
def cexSpotDesc : SpotLightDescriptor := ⟨V3.zero, ⟨1, 0, 0⟩, V3.zero, V3.zero, 1, 0, 0, 30⟩

/-- C5 witness: the amended normalization theorem applied to a freshly built
spot light with no further operations. -/
theorem direction_normalization_amended_witness :
    |V3.magnitude (runLightOps (LightCtor.spot cexSpotDesc).build []).direction - 1| ≤
      EPSILON := by
  apply direction_normalization_amended (LightCtor.spot cexSpotDesc) []
  · intro op hm
    exact absurd hm (List.not_mem_nil op)
  · rw [LightCtor.directionNonzero]
    intro h
    have := congrArg V3.x h
    norm_num [cexSpotDesc, V3.zero] at this
  · left
    rfl

theorem new_spot_cex_direction : (Light.new_spot cexSpotDesc).direction = ⟨1, 0, 0⟩ := by
  show V3.normalize ⟨1, 0, 0⟩ = ⟨1, 0, 0⟩
  rw [V3.normalize, V3.magnitude]
  rw [show V3.quadrance ⟨1, 0, 0⟩ = 1 by norm_num [V3.quadrance], Real.sqrt_one]
  ext <;> norm_num [V3.smul]

/-- C5 counterexample: `set_direction((2,0,0))` on a spot light stores the raw
vector without normalizing, leaving a reachable Spot light whose stored
direction has length 2. -/
theorem direction_normalization_counterexample :
    ((Light.new_spot cexSpotDesc).set_direction ⟨2, 0, 0⟩).light_type = LightType.Spot ∧
    EPSILON <
      |V3.magnitude ((Light.new_spot cexSpotDesc).set_direction ⟨2, 0, 0⟩).direction - 1| := by
  have hcond : EPSILON < V3.distance2 (Light.new_spot cexSpotDesc).direction ⟨2, 0, 0⟩ := by
    rw [new_spot_cex_direction]
    norm_num [V3.distance2, V3.sub, V3.quadrance, EPSILON]
  rw [Light.set_direction, if_pos hcond]
  refine ⟨rfl, ?_⟩
  have hm : V3.magnitude ⟨2, 0, 0⟩ = 2 := by
    rw [V3.magnitude]
    rw [show V3.quadrance ⟨2, 0, 0⟩ = 2 ^ 2 by norm_num [V3.quadrance]]
    exact Real.sqrt_sq (by norm_num)
  show EPSILON < |V3.magnitude ⟨2, 0, 0⟩ - 1|
  rw [hm]
  norm_num [EPSILON]

/-- The invariant backing the Ambient/Point half of C10: light type is
Ambient or Point and the staged uniform's direction is still zeroed. -/
def AmbientPointDirZero (l : Light) : Prop :=
  (l.light_type = LightType.Ambient ∨ l.light_type = LightType.Point) ∧
    l.uniform.direction = V3.zero

theorem Light.update_ambientPointDirZero (l : Light) (h : AmbientPointDirZero l) :
    AmbientPointDirZero (Light.update l).1 := by
  obtain ⟨htype, hdir⟩ := h
  rw [Light.update]
  split_ifs with hd
  · rcases htype with ht | ht <;> simp [AmbientPointDirZero, ht, hdir]
  · exact ⟨htype, hdir⟩

theorem LightOp.apply_ambientPointDirZero (l : Light) (op : LightOp)
    (h : AmbientPointDirZero l) : AmbientPointDirZero (LightOp.apply l op) := by
  obtain ⟨htype, hdir⟩ := h
  cases op with
  | setAmbient v =>
      rw [LightOp.apply, Light.set_ambient]; split_ifs <;> exact ⟨htype, hdir⟩
  | setPosition v =>
      rw [LightOp.apply, Light.set_position]; split_ifs <;> exact ⟨htype, hdir⟩
  | setDirection v =>
      rw [LightOp.apply, Light.set_direction]; split_ifs <;> exact ⟨htype, hdir⟩
  | setColor v =>
      rw [LightOp.apply, Light.set_color]; split_ifs <;> exact ⟨htype, hdir⟩
  | setConstantAttenuation a =>
      rw [LightOp.apply, Light.set_constant_attenuation]; split_ifs <;> exact ⟨htype, hdir⟩
  | setLinearAttenuation a =>
      rw [LightOp.apply, Light.set_linear_attenuation]; split_ifs <;> exact ⟨htype, hdir⟩
  | setExponentialAttenuation a =>
      rw [LightOp.apply, Light.set_exponential_attenuation]; split_ifs <;> exact ⟨htype, hdir⟩
  | setSpotBreadth b =>
      rw [LightOp.apply, Light.set_spot_breadth]; split_ifs <;> exact ⟨htype, hdir⟩
  | update => exact Light.update_ambientPointDirZero l ⟨htype, hdir⟩

theorem runLightOps_ambientPointDirZero (ops : List LightOp) :
    ∀ l : Light, AmbientPointDirZero l → AmbientPointDirZero (runLightOps l ops) := by
  induction ops with
  | nil => intro l h; exact h
  | cons op tl ih =>
      intro l h
      have hstep : runLightOps l (op :: tl) = runLightOps (LightOp.apply l op) tl := rfl
      rw [hstep]
      exact ih _ (LightOp.apply_ambientPointDirZero l op h)

/-- C10: a dirty Spot or Directional light's `update` stores
`direction.normalize()` in the uniform's direction field (unit length whenever
the stored direction is non-zero, even if `set_direction` stored a non-unit
vector); for lights built as Ambient or Point, no reachable state ever writes
the uniform's direction, which stays at its zero-initialized value. -/
theorem uniform_direction_semantics :
    (∀ l : Light, l.is_dirty = true →
      (l.light_type = LightType.Spot ∨ l.light_type = LightType.Directional) →
      (Light.update l).1.uniform.direction = V3.normalize l.direction ∧
      (l.direction ≠ V3.zero →
        V3.magnitude ((Light.update l).1.uniform.direction) = 1)) ∧
    (∀ (c : LightCtor) (ops : List LightOp),
      (c.build.light_type = LightType.Ambient ∨ c.build.light_type = LightType.Point) →
      (runLightOps c.build ops).uniform.direction = V3.zero) := by
  constructor
  · intro l hd htype
    have hdir : (Light.update l).1.uniform.direction = V3.normalize l.direction := by
      rw [Light.update]
      rw [if_pos hd]
      rcases htype with ht | ht <;> simp [ht]
    exact ⟨hdir, fun hnz => by rw [hdir]; exact V3.magnitude_normalize l.direction hnz⟩
  · intro c ops htype
    refine (runLightOps_ambientPointDirZero ops c.build ⟨htype, ?_⟩).2
    rw [LightCtor.build_uniform]
    rfl

/-- A spot light whose stored direction was overwritten with the non-unit
vector `(3,4,0)` through `set_direction`. -/
noncomputable def wSpotLight : Light := (Light.new_spot cexSpotDesc).set_direction ⟨3, 4, 0⟩

theorem wSpotLight_eq :
    wSpotLight = { Light.new_spot cexSpotDesc with direction := ⟨3, 4, 0⟩, is_dirty := true } := by
  rw [wSpotLight, Light.set_direction, if_pos]
  rw [new_spot_cex_direction]
  norm_num [V3.distance2, V3.sub, V3.quadrance, EPSILON]

/-- C10 witness: the uniform-direction theorem applied to the concrete spot
light above (its update writes the normalized `(3,4,0)`, a unit vector) and to
a point light run through one `update`. -/
theorem uniform_direction_semantics_witness :
    (Light.update wSpotLight).1.uniform.direction = V3.normalize ⟨3, 4, 0⟩ ∧
    V3.magnitude ((Light.update wSpotLight).1.uniform.direction) = 1 ∧
    (runLightOps (LightCtor.point cexPointDesc).build [LightOp.update]).uniform.direction =
      V3.zero := by
  have hdirty : wSpotLight.is_dirty = true := by rw [wSpotLight_eq]
  have htype : wSpotLight.light_type = LightType.Spot ∨
      wSpotLight.light_type = LightType.Directional := by
    left
    rw [wSpotLight_eq]
    rfl
  have hdir : wSpotLight.direction = ⟨3, 4, 0⟩ := by rw [wSpotLight_eq]
  have hnz : wSpotLight.direction ≠ V3.zero := by
    rw [hdir]
    intro h
    have := congrArg V3.x h
    norm_num [V3.zero] at this
  obtain ⟨h1, h2⟩ := uniform_direction_semantics.1 wSpotLight hdirty htype
  refine ⟨by rw [h1, hdir], h2 hnz, ?_⟩
  exact uniform_direction_semantics.2 (LightCtor.point cexPointDesc) [LightOp.update]
    (Or.inr rfl)

theorem V3.dot_self (a : V3) : V3.dot a a = a.quadrance := by
  rw [V3.dot, V3.quadrance]

theorem V3.dot_comm (a b : V3) : V3.dot a b = V3.dot b a := by
  rw [V3.dot, V3.dot]
  ring

theorem V3.dot_smul_left (s : ℝ) (a b : V3) :
    V3.dot (V3.smul s a) b = s * V3.dot a b := by
  rw [V3.smul, V3.dot, V3.dot]
  ring

theorem V3.dot_cross_left (a b : V3) : V3.dot (V3.cross a b) a = 0 := by
  rw [V3.cross, V3.dot]
  ring

theorem V3.dot_cross_right (a b : V3) : V3.dot (V3.cross a b) b = 0 := by
  rw [V3.cross, V3.dot]
  ring

theorem V3.quadrance_cross (a b : V3) :
    (V3.cross a b).quadrance = a.quadrance * b.quadrance - (V3.dot a b) ^ 2 := by
  rw [V3.cross, V3.quadrance, V3.quadrance, V3.quadrance, V3.dot]
  ring

theorem V3.quadrance_neg (a : V3) : (V3.neg a).quadrance = a.quadrance := by
  rw [V3.neg, V3.quadrance, V3.quadrance]
  ring

theorem V3.dot_normalize_left (a b : V3) :
    V3.dot (V3.normalize a) b = (1 / a.magnitude) * V3.dot a b := by
  rw [V3.normalize, V3.dot_smul_left]

theorem V3.ne_zero_of_quadrance_one (a : V3) (h : a.quadrance = 1) : a ≠ V3.zero := by
  intro h0
  rw [(V3.quadrance_eq_zero_iff a).mpr h0] at h
  norm_num at h

/-- Exact columnwise orthonormality of a 3×3 matrix. -/
def Orthonormal (m : M3) : Prop :=
  m.c0.quadrance = 1 ∧ m.c1.quadrance = 1 ∧ m.c2.quadrance = 1 ∧
    V3.dot m.c0 m.c1 = 0 ∧ V3.dot m.c0 m.c2 = 0 ∧ V3.dot m.c1 m.c2 = 0

/-- Columnwise orthonormality within a tolerance: each column's length is
within `ε` of 1 and each pair of columns has dot product within `ε` of 0. -/
def OrthonormalWithin (ε : ℝ) (m : M3) : Prop :=
  |m.c0.magnitude - 1| ≤ ε ∧ |m.c1.magnitude - 1| ≤ ε ∧ |m.c2.magnitude - 1| ≤ ε ∧
    |V3.dot m.c0 m.c1| ≤ ε ∧ |V3.dot m.c0 m.c2| ≤ ε ∧ |V3.dot m.c1 m.c2| ≤ ε

theorem Orthonormal.within (m : M3) (h : Orthonormal m) : OrthonormalWithin EPSILON m := by
  obtain ⟨h0, h1, h2, h01, h02, h12⟩ := h
  have e0 : m.c0.magnitude = 1 := by rw [V3.magnitude, h0, Real.sqrt_one]
  have e1 : m.c1.magnitude = 1 := by rw [V3.magnitude, h1, Real.sqrt_one]
  have e2 : m.c2.magnitude = 1 := by rw [V3.magnitude, h2, Real.sqrt_one]
  refine ⟨?_, ?_, ?_, ?_, ?_, ?_⟩ <;>
    simp [e0, e1, e2, h01, h02, h12, EPSILON] <;> norm_num

/-- Left multiplication by a dot-product-preserving matrix sends orthonormal
column frames to orthonormal column frames. -/
def DotPreserving (R : M3) : Prop :=
  ∀ x y : V3, V3.dot (R.mulVec x) (R.mulVec y) = V3.dot x y

theorem DotPreserving.mul_orthonormal (R m : M3) (hR : DotPreserving R)
    (hm : Orthonormal m) : Orthonormal (M3.mul R m) := by
  obtain ⟨h0, h1, h2, h01, h02, h12⟩ := hm
  refine ⟨?_, ?_, ?_, ?_, ?_, ?_⟩
  · rw [show (M3.mul R m).c0 = R.mulVec m.c0 from rfl, ← V3.dot_self, hR, V3.dot_self, h0]
  · rw [show (M3.mul R m).c1 = R.mulVec m.c1 from rfl, ← V3.dot_self, hR, V3.dot_self, h1]
  · rw [show (M3.mul R m).c2 = R.mulVec m.c2 from rfl, ← V3.dot_self, hR, V3.dot_self, h2]
  · rw [show (M3.mul R m).c0 = R.mulVec m.c0 from rfl,
      show (M3.mul R m).c1 = R.mulVec m.c1 from rfl, hR, h01]
  · rw [show (M3.mul R m).c0 = R.mulVec m.c0 from rfl,
      show (M3.mul R m).c2 = R.mulVec m.c2 from rfl, hR, h02]
  · rw [show (M3.mul R m).c1 = R.mulVec m.c1 from rfl,
      show (M3.mul R m).c2 = R.mulVec m.c2 from rfl, hR, h12]

theorem M3.from_axis_angle_dotPreserving (axis : V3) (angle : ℝ)
    (h : axis.quadrance = 1) : DotPreserving (M3.from_axis_angle axis angle) := by
  intro x y
  have hsc : Real.sin angle ^ 2 + Real.cos angle ^ 2 = 1 := Real.sin_sq_add_cos_sq angle
  rw [V3.quadrance] at h
  simp only [M3.from_axis_angle, M3.mulVec, V3.dot, V3.add, V3.smul]
  linear_combination
    ((x.x * y.x + x.y * y.y + x.z * y.z) * Real.sin angle ^ 2 +
      ((axis.x * x.x + axis.y * x.y + axis.z * x.z) *
        (axis.x * y.x + axis.y * y.y + axis.z * y.z)) * (1 - Real.cos angle) ^ 2) * h +
    ((x.x * y.x + x.y * y.y + x.z * y.z) -
      (axis.x * x.x + axis.y * x.y + axis.z * x.z) *
        (axis.x * y.x + axis.y * y.y + axis.z * y.z)) * hsc

theorem M3.from_angle_y_dotPreserving (angle : ℝ) :
    DotPreserving (M3.from_angle_y angle) := by
  intro x y
  have hsc : Real.sin angle ^ 2 + Real.cos angle ^ 2 = 1 := Real.sin_sq_add_cos_sq angle
  simp only [M3.from_angle_y, M3.mulVec, V3.dot, V3.add, V3.smul]
  linear_combination (x.x * y.x + x.z * y.z) * hsc

/-- The nondegeneracy condition under which a `look_at` call produces a
well-defined frame: the target differs from the position, and the (normalized)
up vector is not collinear with the view direction. -/
def CameraOp.Valid : CameraOp → Prop
  | .lookAt position at_ up =>
      V3.sub at_ position ≠ V3.zero ∧
        V3.cross (V3.normalize up) (V3.neg (V3.normalize (V3.sub at_ position))) ≠ V3.zero
  | .rotateBy _ _ => True

theorem Camera.look_at_orthonormal (c : Camera) (position at_ up : V3)
    (h1 : V3.sub at_ position ≠ V3.zero)
    (h2 : V3.cross (V3.normalize up) (V3.neg (V3.normalize (V3.sub at_ position))) ≠ V3.zero) :
    Orthonormal (c.look_at position at_ up).look := by
  simp only [Camera.look_at, M3.from_cols]
  set f := V3.neg (V3.normalize (V3.sub at_ position)) with hf
  set u0 := V3.normalize up with hu0
  set r := V3.normalize (V3.cross u0 f) with hr
  set u1 := V3.normalize (V3.cross f r) with hu1
  have hqf : f.quadrance = 1 := by
    rw [hf, V3.quadrance_neg]
    exact V3.quadrance_normalize _ h1
  have hqr : r.quadrance = 1 := V3.quadrance_normalize _ h2
  have hrf : V3.dot r f = 0 := by
    rw [hr, V3.dot_normalize_left, V3.dot_cross_right, mul_zero]
  have hqfr : (V3.cross f r).quadrance = 1 := by
    rw [V3.quadrance_cross, hqf, hqr, V3.dot_comm f r, hrf]
    norm_num
  have hfr_ne : V3.cross f r ≠ V3.zero := V3.ne_zero_of_quadrance_one _ hqfr
  have hqu1 : u1.quadrance = 1 := V3.quadrance_normalize _ hfr_ne
  refine ⟨hqr, hqu1, hqf, ?_, hrf, ?_⟩
  · rw [V3.dot_comm, hu1, V3.dot_normalize_left, V3.dot_cross_right, mul_zero]
  · rw [hu1, V3.dot_normalize_left, V3.dot_cross_left, mul_zero]

theorem Camera.rotate_by_orthonormal (c : Camera) (yaw pitch : ℝ)
    (h : Orthonormal c.look) : Orthonormal (c.rotate_by yaw pitch).look := by
  simp only [Camera.rotate_by]
  exact (M3.from_angle_y_dotPreserving yaw).mul_orthonormal _ _
    ((M3.from_axis_angle_dotPreserving c.look.c0 pitch h.1).mul_orthonormal _ _ h)

theorem runCameraOps_orthonormal (ops : List CameraOp)
    (hv : ∀ op ∈ ops, op.Valid) :
    ∀ cam : Camera, Orthonormal cam.look → Orthonormal (runCameraOps cam ops).look := by
  induction ops with
  | nil => intro cam h; exact h
  | cons op tl ih =>
      intro cam h
      have hstep : runCameraOps cam (op :: tl) = runCameraOps (CameraOp.apply cam op) tl := rfl
      rw [hstep]
      refine ih (fun o hm => hv o (List.mem_cons_of_mem op hm)) _ ?_
      cases op with
      | lookAt p a u =>
          obtain ⟨hv1, hv2⟩ := hv _ (List.mem_cons_self _ tl)
          exact Camera.look_at_orthonormal cam p a u hv1 hv2
      | rotateBy y pch => exact Camera.rotate_by_orthonormal cam y pch h

/-- C9: after any finite sequence of `look_at` (with non-degenerate inputs)
and `rotate_by` calls on a freshly constructed camera, the columns of the
orientation matrix have unit length and are mutually orthogonal to within
1e-4 (in fact the frame is exactly orthonormal in the real-number
idealization). -/
theorem camera_orientation_orthonormal (w h : ℕ) (fovy zn zf : ℝ)
    (ops : List CameraOp) (hv : ∀ op ∈ ops, op.Valid) :
    OrthonormalWithin EPSILON (runCameraOps (Camera.new w h fovy zn zf) ops).look := by
  apply Orthonormal.within
  apply runCameraOps_orthonormal ops hv
  rw [show (Camera.new w h fovy zn zf).look = M3.identity from rfl]
  refine ⟨?_, ?_, ?_, ?_, ?_, ?_⟩ <;> norm_num [M3.identity, V3.quadrance, V3.dot]

/-- Concrete operation sequence for witnessing C9: one non-degenerate
`look_at` followed by one `rotate_by`. -/
def wCamOps : List CameraOp :=
  [CameraOp.lookAt ⟨0, 0, 5⟩ ⟨0, 0, 0⟩ ⟨0, 1, 0⟩, CameraOp.rotateBy 1 2]

theorem wCamOps_normalize_up : V3.normalize ⟨0, 1, 0⟩ = ⟨0, 1, 0⟩ := by
  rw [V3.normalize, V3.magnitude]
  rw [show V3.quadrance ⟨0, 1, 0⟩ = 1 by norm_num [V3.quadrance], Real.sqrt_one]
  ext <;> norm_num [V3.smul]

theorem wCamOps_normalize_view : V3.normalize ⟨0, 0, -5⟩ = ⟨0, 0, -1⟩ := by
  rw [V3.normalize, V3.magnitude]
  rw [show V3.quadrance ⟨0, 0, -5⟩ = 5 ^ 2 by norm_num [V3.quadrance],
    Real.sqrt_sq (by norm_num : (0 : ℝ) ≤ 5)]
  ext <;> norm_num [V3.smul]

/-- C9 witness: the orthonormality theorem applied to a fresh 800×600 camera
and the concrete `look_at`/`rotate_by` sequence above. -/
theorem camera_orientation_orthonormal_witness :
    OrthonormalWithin EPSILON
      (runCameraOps (Camera.new 800 600 1 (1 / 10) 100) wCamOps).look := by
  apply camera_orientation_orthonormal
  intro op hm
  rcases List.mem_cons.mp hm with rfl | hm'
  · refine ⟨?_, ?_⟩
    · rw [show V3.sub ⟨0, 0, 0⟩ ⟨0, 0, 5⟩ = ⟨0, 0, -5⟩ by ext <;> norm_num [V3.sub]]
      intro hcontra
      have := congrArg V3.z hcontra
      norm_num [V3.zero] at this
    · rw [show V3.sub ⟨0, 0, 0⟩ ⟨0, 0, 5⟩ = ⟨0, 0, -5⟩ by ext <;> norm_num [V3.sub],
        wCamOps_normalize_up, wCamOps_normalize_view]
      rw [show V3.neg ⟨0, 0, -1⟩ = ⟨0, 0, 1⟩ by ext <;> norm_num [V3.neg]]
      rw [show V3.cross ⟨0, 1, 0⟩ ⟨0, 0, 1⟩ = ⟨1, 0, 0⟩ by ext <;> norm_num [V3.cross]]
      intro hcontra
      have := congrArg V3.x hcontra
      norm_num [V3.zero] at this
  · rcases List.mem_cons.mp hm' with rfl | hm''
    · exact trivial
    · exact absurd hm'' (List.not_mem_nil op)

end WgpuDemo
